import Mathlib

/-!
# CBMS family/believer relationship-integrity subsystem — verification

Shallow embedding of the core of the church membership management system
(backend/controllers/family.controller.js, backend/controllers/believer.controller.js,
models Family.js and Believer.js, backend/utils/helpers.js), together with
proofs about the lifecycle operations.

Modelling conventions:
* Mongo ObjectIds are natural numbers allocated from a `nextId` counter.
* Dates enter the business logic only through `moment().diff(dob, "years")`;
  we model instants at year granularity as integers, so
  `calcAgeIST today dob = today - dob`.
* JS string truthiness: an absent field is `none`, and `""` is falsy; the
  helpers `isFalsy` / `isBlank` mirror `!x` and `!x?.trim()`.
* Mongoose schema validators (enum membership, required-on-create) are not
  re-modelled; theorems about successful paths hypothesise schema-valid
  payloads, exactly as the controllers assume them.
* Each controller returns the unchanged store on an error path together with
  an `Outcome` describing the HTTP response.
-/

namespace CBMS

/-- Tamil Nadu district enum from models/Family.js. -/
def TN_DISTRICTS : List String :=
  ["Ariyalur", "Chengalpattu", "Chennai", "Coimbatore", "Cuddalore",
   "Dharmapuri", "Dindigul", "Erode", "Kallakurichi", "Kancheepuram",
   "Kanyakumari", "Karur", "Krishnagiri", "Madurai", "Mayiladuthurai",
   "Nagapattinam", "Namakkal", "Nilgiris", "Perambalur", "Pudukkottai",
   "Ramanathapuram", "Ranipet", "Salem", "Sivaganga", "Tenkasi",
   "Thanjavur", "Theni", "Thoothukudi", "Tiruchirappalli", "Tirunelveli",
   "Tirupathur", "Tiruppur", "Tiruvallur", "Tiruvannamalai", "Tiruvarur",
   "Vellore", "Viluppuram", "Virudhunagar"]

/-- Embeds `momentTz().tz(TIMEZONE).diff(momentTz(dob).tz(TIMEZONE), "years")`,
with instants measured in whole years (see module header). -/
def calcAgeIST (today dob : Int) : Int := today - dob

/-- Embeds `resolveOccupation` from family.controller.js line 29:
`(age, provided) => (age <= 5 ? "Child" : provided || "Non-Worker")`. -/
def resolveOccupation (age : Int) (provided : Option String) : String :=
  if age ≤ 5 then "Child"
  else match provided with
    | some s => if s = "" then "Non-Worker" else s
    | none => "Non-Worker"

/-- Embeds `suggestMemberType` from backend/utils/helpers.js lines 18-22. -/
def suggestMemberType (age : Int) (maritalStatus : String) : String :=
  if age ≤ 12 then "Child"
  else if age ≤ 30 ∧ maritalStatus = "Single" then "Youth"
  else "Member"

/-- The classifier exactly as the specification words it
(`Child` if age < 13; `Youth` if 13 ≤ age ≤ 30 and Single; else `Member`);
compared against `suggestMemberType` for claim C9. -/
def specMemberType (age : Int) (maritalStatus : String) : String :=
  if age < 13 then "Child"
  else if 13 ≤ age ∧ age ≤ 30 ∧ maritalStatus = "Single" then "Youth"
  else "Member"

/-- JS truthiness for an optional string: `!x` (absent or empty). -/
def isFalsy : Option String → Bool
  | none => true
  | some s => s == ""

/-- Whitespace trim on both ends, written over the character list so that it
is kernel-computable (the standard trim loops on byte positions and does not
reduce definitionally); behaviourally identical to the JS trim for the
strings handled here. -/
def strTrim (s : String) : String :=
  String.mk (((s.data.dropWhile Char.isWhitespace).reverse.dropWhile
    Char.isWhitespace).reverse)

/-- JS `!x?.trim()` (absent or whitespace-only). -/
def isBlank : Option String → Bool
  | none => true
  | some s => strTrim s == ""

/-- JS `x || undefined` on an optional string (empty collapses to absent). -/
def jsStrOpt : Option String → Option String
  | none => none
  | some s => if s == "" then none else some s

/-- JS `x?.trim() || undefined`. -/
def jsTrimOpt : Option String → Option String
  | none => none
  | some s => if strTrim s == "" then none else some (strTrim s)

/-- JS `x || default` on an optional string. -/
def jsOrDefault (x : Option String) (d : String) : String :=
  match x with
  | none => d
  | some s => if s == "" then d else s

/-- Embeds the `validateBelieverFields` phone rule (family.controller.js lines 32-38):
error exactly when the phone is present, non-empty and not 10 digits. -/
def phoneValid : Option String → Bool
  | none => true
  | some p => if p == "" then true else p.length == 10 && p.data.all Char.isDigit

/-- Embeds `String(n).padStart(4, "0")`. -/
def padCode (n : Nat) : String :=
  let s := toString n
  String.mk (List.replicate (4 - s.length) '0') ++ s

/-- Believer document (models/Believer.js). -/
structure Believer where
  bid : Nat
  familyId : Nat
  isHead : Bool
  fullName : String
  dob : Int
  gender : String
  phone : Option String
  email : Option String
  memberType : String
  membershipStatus : String
  joinDate : Option Int
  baptized : String
  baptizedDate : Option Int
  relationshipToHead : String
  relationCustom : Option String
  maritalStatus : String
  spouseId : Option Nat
  spouseName : Option String
  weddingDate : Option Int
  occupationCategory : String
  educationLevel : Option String
  isDeleted : Bool
  deletedAt : Option Int
deriving Repr, DecidableEq

/-- Family document (models/Family.js). -/
structure Family where
  fid : Nat
  familyCode : Option String
  address : String
  village : String
  district : String
  familyStatus : String
  headId : Option Nat
  isDeleted : Bool
  deletedAt : Option Int
deriving Repr, DecidableEq

/-- The document store: both collections plus the ObjectId allocator. -/
structure DB where
  families : List Family
  believers : List Believer
  nextId : Nat
deriving Repr, DecidableEq

/-- The empty store. -/
def DB.empty : DB := ⟨[], [], 0⟩

/-- HTTP-observable outcome of a controller call. -/
inductive Outcome where
  /-- Success with the given status code. -/
  | ok (status : Nat) : Outcome
  /-- Outcome of `next(new AppError(msg, status))`. -/
  | appError (status : Nat) (msg : String) : Outcome
  /-- believer.controller.js lines 226-230: direct 409 JSON response with
  machine-readable code `IS_HEAD`. -/
  | isHeadConflict : Outcome
  /-- An uncaught JS `ReferenceError` on the named identifier; the global
  error handler answers 500. -/
  | referenceError (name : String) : Outcome
deriving Repr, DecidableEq

/-- Point update in `findByIdAndUpdate` style: apply `g` to every believer whose
`_id` matches (ids are unique in an actual store). -/
def DB.updateBelieverById (db : DB) (id : Nat) (g : Believer → Believer) : DB :=
  { db with believers := db.believers.map (fun b => if b.bid == id then g b else b) }

/-- Raw `head` object of a POST /api/families body; `none` marks an absent key. -/
structure HeadReq where
  fullName : Option String := none
  dob : Option Int := none
  gender : Option String := none
  maritalStatus : Option String := none
  baptized : Option String := none
  baptizedDate : Option Int := none
  memberType : Option String := none
  occupationCategory : Option String := none
  weddingDate : Option Int := none
  spouseName : Option String := none
  phone : Option String := none
  email : Option String := none
  membershipStatus : Option String := none
  joinDate : Option Int := none
  educationLevel : Option String := none
deriving Repr, DecidableEq

/-- Raw POST /api/families body. -/
structure CreateFamilyReq where
  address : Option String := none
  village : Option String := none
  district : Option String := none
  familyStatus : Option String := none
  head : Option HeadReq := none
deriving Repr, DecidableEq

/-- Embeds `createFamily` exactly as written (family.controller.js lines 121-191).
Line 122 destructures only `{ address, village, familyStatus, head }` from
`req.body`, yet line 126 evaluates `district?.trim()`: `district` is an
undeclared identifier, so every request that passes the address and village
checks throws `ReferenceError: district is not defined`, which `catchAsync`
forwards to the global error handler (a 500, since a `ReferenceError` carries
no `statusCode`). Nothing is ever persisted. -/
def createFamily (db : DB) (req : CreateFamilyReq) : DB × Outcome :=
  if isBlank req.address then (db, .appError 400 "Address is required.")
  else if isBlank req.village then (db, .appError 400 "Village is required.")
  else (db, .referenceError "district")

/-- The head believer document inserted by family creation
(family.controller.js lines 154-178), given the precomputed age and the
already-forced marital fields. -/
def mkHeadDoc (famId headId : Nat) (head : HeadReq) (age : Int)
    (maritalStatus : String) (weddingDate : Option Int)
    (spouseName : Option String) : Believer :=
  { bid := headId
    familyId := famId
    isHead := true
    relationshipToHead := "Self"
    relationCustom := none
    fullName := strTrim (head.fullName.getD "")
    dob := head.dob.getD 0
    gender := head.gender.getD ""
    phone := jsStrOpt head.phone
    email := jsTrimOpt head.email
    maritalStatus := maritalStatus
    spouseId := none
    memberType := head.memberType.getD ""
    membershipStatus := jsOrDefault head.membershipStatus "Active"
    joinDate := head.joinDate
    baptized := head.baptized.getD ""
    baptizedDate := if head.baptized == some "Yes" then head.baptizedDate else none
    weddingDate := weddingDate
    spouseName := spouseName
    occupationCategory := resolveOccupation age head.occupationCategory
    educationLevel :=
      if head.occupationCategory == some "Student" && !(isFalsy head.educationLevel)
      then head.educationLevel else none
    isDeleted := false
    deletedAt := none }

/-- Embeds `createFamily` with the one-token repair of the claim-C8 slip
(`district` read from `req.body`, as every other use of the controller
evidently intends); this is the only way any family-creating trace exists.
Mirrors family.controller.js lines 121-191 plus the pre-save hook of
models/Family.js lines 32-51, which assigns
`FAM-` plus `String(count+1).padStart(4, "0")` from the count of non-deleted
families (a `countDocuments` outside the session, hence not including the
document being inserted). -/
def createFamilyWithHead (db : DB) (today : Int) (req : CreateFamilyReq) :
    DB × Outcome :=
  if isBlank req.address then (db, .appError 400 "Address is required.")
  else if isBlank req.village then (db, .appError 400 "Village is required.")
  else if isBlank req.district then (db, .appError 400 "District is required.")
  else if !(TN_DISTRICTS.contains ((req.district.getD ""))) then
    (db, .appError 400 "Invalid district selected.")
  else if isBlank (req.head.bind HeadReq.fullName) then
    (db, .appError 400 "Head full name is required.")
  else if (req.head.bind HeadReq.dob).isNone then
    (db, .appError 400 "Head date of birth is required.")
  else if isFalsy (req.head.bind HeadReq.gender) then
    (db, .appError 400 "Head gender is required.")
  else if isFalsy (req.head.bind HeadReq.maritalStatus) then
    (db, .appError 400 "Head marital status is required.")
  else if isFalsy (req.head.bind HeadReq.baptized) then
    (db, .appError 400 "Head baptized status is required.")
  else if isFalsy (req.head.bind HeadReq.memberType) then
    (db, .appError 400 "Head member type is required.")
  else if isFalsy (req.head.bind HeadReq.occupationCategory) then
    (db, .appError 400 "Head occupation is required.")
  else if !(phoneValid (req.head.bind HeadReq.phone)) then
    (db, .appError 400 "Phone must be exactly 10 digits.")
  else
    let head := req.head.getD {}
    let age := calcAgeIST today (head.dob.getD 0)
    let maritalStatus := if age < 18 then "Single" else head.maritalStatus.getD ""
    let weddingDate := if maritalStatus == "Married" then head.weddingDate else none
    let spouseName := if maritalStatus == "Married" then head.spouseName else none
    let count := (db.families.filter (fun f => f.isDeleted == false)).length
    let newFam : Family :=
      { fid := db.nextId
        familyCode := some ("FAM-" ++ padCode (count + 1))
        address := strTrim (req.address.getD "")
        village := strTrim (req.village.getD "")
        district := strTrim (req.district.getD "")
        familyStatus := jsOrDefault req.familyStatus "Active"
        headId := some (db.nextId + 1)
        isDeleted := false
        deletedAt := none }
    let newHead := mkHeadDoc db.nextId (db.nextId + 1) head age
      maritalStatus weddingDate spouseName
    ({ families := db.families ++ [newFam]
       believers := db.believers ++ [newHead]
       nextId := db.nextId + 2 }, .ok 201)

/-- Raw POST /api/families/:id/members body; `none` marks an absent key
(for `spouseId`, also the JS falsy empty string and null, which the
truthiness test at line 378 treats identically). -/
structure MemberReq where
  fullName : Option String := none
  dob : Option Int := none
  gender : Option String := none
  relationshipToHead : Option String := none
  relationCustom : Option String := none
  memberType : Option String := none
  occupationCategory : Option String := none
  maritalStatus : Option String := none
  spouseId : Option Nat := none
  spouseName : Option String := none
  weddingDate : Option Int := none
  baptized : Option String := none
  baptizedDate : Option Int := none
  phone : Option String := none
  email : Option String := none
  membershipStatus : Option String := none
  joinDate : Option Int := none
  educationLevel : Option String := none
deriving Repr, DecidableEq

/-- The member document built at family.controller.js lines 383-407, given the
(possibly mutated) marital/spouse fields `ms`, `sid`, `sname`, `wd`. -/
def mkMemberDoc (famId memberId : Nat) (data : MemberReq) (age : Int)
    (ms : Option String) (sid : Option Nat) (sname : Option String)
    (wd : Option Int) : Believer :=
  { bid := memberId
    familyId := famId
    isHead := false
    fullName := strTrim (data.fullName.getD "")
    dob := data.dob.getD 0
    gender := data.gender.getD ""
    phone := jsStrOpt data.phone
    email := jsTrimOpt data.email
    memberType := data.memberType.getD ""
    membershipStatus := jsOrDefault data.membershipStatus "Active"
    joinDate := data.joinDate
    baptized := data.baptized.getD ""
    baptizedDate := if data.baptized == some "Yes" then data.baptizedDate else none
    relationshipToHead := data.relationshipToHead.getD ""
    relationCustom :=
      if data.relationshipToHead == some "Other" then jsTrimOpt data.relationCustom
      else none
    maritalStatus := jsOrDefault ms "Single"
    spouseId := sid
    spouseName := jsStrOpt sname
    weddingDate := if ms == some "Married" && wd.isSome then wd else none
    occupationCategory := resolveOccupation age data.occupationCategory
    educationLevel :=
      if data.occupationCategory == some "Student" && !(isFalsy data.educationLevel)
      then data.educationLevel else none
    isDeleted := false
    deletedAt := none }

/-- Placeholder believer: the never-inspected default of `Option.getD` on
branches that an `isNone` guard already excluded. -/
def dummyBeliever : Believer :=
  { bid := 0, familyId := 0, isHead := false, fullName := "", dob := 0,
    gender := "", phone := none, email := none, memberType := "",
    membershipStatus := "", joinDate := none, baptized := "", baptizedDate := none,
    relationshipToHead := "", relationCustom := none, maritalStatus := "",
    spouseId := none, spouseName := none, weddingDate := none,
    occupationCategory := "", educationLevel := none, isDeleted := false,
    deletedAt := none }

/-- Embeds `addMember` (family.controller.js lines 306-433); the spouse
branch follows the if-shape of the JS (`if (!head) return 404;
if (head.spouseId) return 409; ...`). -/
def addMember (db : DB) (today : Int) (famId : Nat) (data : MemberReq) :
    DB × Outcome :=
  match db.families.find? (fun f => f.fid == famId && f.isDeleted == false) with
  | none => (db, .appError 404 "Family not found.")
  | some family =>
    if isBlank data.fullName then (db, .appError 400 "Full name is required.")
    else if data.dob.isNone then (db, .appError 400 "Date of birth is required.")
    else if isFalsy data.gender then (db, .appError 400 "Gender is required.")
    else if isFalsy data.relationshipToHead ||
        data.relationshipToHead == some "Self" then
      (db, .appError 400 "A valid relationship to head is required.")
    else if data.relationshipToHead == some "Other" && isBlank data.relationCustom then
      (db, .appError 400 "Custom relation is required when \x22Other\x22 is selected.")
    else if isFalsy data.memberType then (db, .appError 400 "Member type is required.")
    else if isFalsy data.occupationCategory then
      (db, .appError 400 "Occupation is required.")
    else if !(phoneValid data.phone) then
      (db, .appError 400 "Phone must be exactly 10 digits.")
    else
      let age := calcAgeIST today (data.dob.getD 0)
      let isSpouseRelation := data.relationshipToHead == some "Wife" ||
        data.relationshipToHead == some "Husband"
      if age < 18 && isSpouseRelation then
        (db, .appError 400 "A person under 18 cannot be added as Wife or Husband.")
      else
        -- lines 336-340: the under-18 mutation of `data`
        let ms0 := if age < 18 then some "Single" else data.maritalStatus
        let sid0 := if age < 18 then none else data.spouseId
        let sname0 := if age < 18 then none else data.spouseName
        let wd0 := if age < 18 then none else data.weddingDate
        if isSpouseRelation && age ≥ 18 then
          -- lines 346-365 and 412-426
          let headOpt := db.believers.find? (fun b => family.headId == some b.bid)
          if headOpt.isNone then (db, .appError 404 "Family head not found.")
          else
            let head := headOpt.getD dummyBeliever
            if head.spouseId.isSome then
              let existingName :=
                match db.believers.find? (fun b => b.bid == head.spouseId.getD 0) with
                | some sp => sp.fullName
                | none => "unknown"
              (db, .appError 409
                ("The family head already has a linked spouse (\x22" ++ existingName ++
                  "\x22). Cannot add another."))
            else
              let member := mkMemberDoc family.fid db.nextId data age
                (some "Married") none sname0 wd0
              let db1 : DB :=
                { db with believers := db.believers ++ [member]
                          nextId := db.nextId + 1 }
              let db2 := db1.updateBelieverById member.bid
                (fun b => { b with spouseId := family.headId
                                   spouseName := some head.fullName })
              let db3 := db2.updateBelieverById head.bid
                (fun b => { b with spouseId := some member.bid
                                   spouseName := some member.fullName
                                   maritalStatus := "Married" })
              (db3, .ok 201)
        else
          if !isSpouseRelation && age ≥ 18 && isFalsy ms0 then
            (db, .appError 400 "Marital status is required.")
          else if !isSpouseRelation && age ≥ 18 && ms0 == some "Married" &&
              sid0.isNone && isFalsy sname0 then
            (db, .appError 400 "Spouse ID or spouse name is required for Married status.")
          else
            let member := mkMemberDoc family.fid db.nextId data age ms0 sid0 sname0 wd0
            let db1 : DB :=
              { db with believers := db.believers ++ [member]
                        nextId := db.nextId + 1 }
            match sid0 with
            | some sid =>
              (db1.updateBelieverById sid (fun b => { b with spouseId := some member.bid }),
               .ok 201)
            | none => (db1, .ok 201)

/-- Raw PUT /api/believers/:id body (believer.controller.js).
Outer `none` marks an absent key. For the tri-state fields the inner
`none` marks the JS values the sanitizer folds to a clear/skip:
`spouseId : some none` is the empty string, the string "null" or null;
`weddingDate : some none` and `educationLevel : some none` are the empty
string; `baptizedDate : some none` is null. The three `…Present` flags record whether a
locked field appeared in the body at all (`req.body[f] !== undefined`). -/
structure UpdateReq where
  fullName : Option String := none
  dob : Option Int := none
  gender : Option String := none
  phone : Option String := none
  email : Option String := none
  memberType : Option String := none
  membershipStatus : Option String := none
  joinDate : Option Int := none
  baptized : Option String := none
  baptizedDate : Option (Option Int) := none
  maritalStatus : Option String := none
  weddingDate : Option (Option Int) := none
  spouseId : Option (Option Nat) := none
  spouseName : Option String := none
  occupationCategory : Option String := none
  educationLevel : Option (Option String) := none
  familyIdPresent : Bool := false
  isHeadPresent : Bool := false
  relationshipToHeadPresent : Bool := false
deriving Repr, DecidableEq

/-- The sanitized `$set` document produced by `sanitizeUpdateData`
(believer.controller.js lines 34-52): a present key updates the field. -/
structure UpdateData where
  fullName : Option String := none
  dob : Option Int := none
  gender : Option String := none
  phone : Option String := none
  email : Option String := none
  memberType : Option String := none
  membershipStatus : Option String := none
  joinDate : Option Int := none
  baptized : Option String := none
  baptizedDate : Option (Option Int) := none
  maritalStatus : Option String := none
  weddingDate : Option Int := none
  spouseId : Option (Option Nat) := none
  spouseName : Option String := none
  occupationCategory : Option String := none
  educationLevel : Option String := none
deriving Repr, DecidableEq

/-- Embeds `sanitizeUpdateData` (believer.controller.js lines 34-52):
a falsy `spouseId` becomes null; empty `educationLevel` and empty
`weddingDate` are dropped from the update entirely. -/
def sanitizeUpdateData (raw : UpdateReq) : UpdateData :=
  { fullName := raw.fullName
    dob := raw.dob
    gender := raw.gender
    phone := raw.phone
    email := raw.email
    memberType := raw.memberType
    membershipStatus := raw.membershipStatus
    joinDate := raw.joinDate
    baptized := raw.baptized
    baptizedDate := raw.baptizedDate
    maritalStatus := raw.maritalStatus
    weddingDate := match raw.weddingDate with
      | some (some d) => some d
      | _ => none
    spouseId := raw.spouseId
    spouseName := raw.spouseName
    occupationCategory := raw.occupationCategory
    educationLevel := match raw.educationLevel with
      | some (some s) => some s
      | _ => none }

/-- Apply a sanitized update document to a believer (the `$set` semantics
of `findOneAndUpdate`). Locked fields (`familyId`, `isHead`,
`relationshipToHead`) and the trash flags are never part of the document. -/
def applyUpdate (u : UpdateData) (b : Believer) : Believer :=
  { b with
    fullName := u.fullName.getD b.fullName
    dob := u.dob.getD b.dob
    gender := u.gender.getD b.gender
    phone := match u.phone with | some p => some p | none => b.phone
    email := match u.email with | some e => some e | none => b.email
    memberType := u.memberType.getD b.memberType
    membershipStatus := u.membershipStatus.getD b.membershipStatus
    joinDate := match u.joinDate with | some d => some d | none => b.joinDate
    baptized := u.baptized.getD b.baptized
    baptizedDate := match u.baptizedDate with | some v => v | none => b.baptizedDate
    maritalStatus := u.maritalStatus.getD b.maritalStatus
    weddingDate := match u.weddingDate with | some d => some d | none => b.weddingDate
    spouseId := match u.spouseId with | some v => v | none => b.spouseId
    spouseName := match u.spouseName with | some s => some s | none => b.spouseName
    occupationCategory := u.occupationCategory.getD b.occupationCategory
    educationLevel := match u.educationLevel with
      | some s => some s
      | none => b.educationLevel }

/-- The under-18 forcing of believer.controller.js lines 164-167 / 174-177:
force maritalStatus Single, null the spouseId, drop weddingDate from the patch. -/
def forceMinor (age : Int) (u : UpdateData) : UpdateData :=
  if age < 18 then
    { u with maritalStatus := some "Single", spouseId := some none,
             weddingDate := none }
  else u

/-- The second half of `updateBeliever` (believer.controller.js lines
181-215), after the effective update document `u` is settled: baptism
forcing, the `findOneAndUpdate`, and the spouse cross-reference sync.
The clearing branch of the sync re-reads the believer by `findById` only
AFTER the update was applied (the read of `old` at line 208 runs after the
`findOneAndUpdate` of line 193), so it observes the already-cleared
`spouseId`. -/
def updateBelieverApply (db : DB) (id : Nat) (u : UpdateData) : DB × Outcome :=
  let u2 := if u.baptized == some "No" then { u with baptizedDate := some none } else u
  match db.believers.find? (fun b => b.bid == id && b.isDeleted == false) with
  | none => (db, .appError 404 "Believer not found.")
  | some _ =>
    let db1 := db.updateBelieverById id (applyUpdate u2)
    match u2.spouseId with
    | some (some sid) =>
      (db1.updateBelieverById sid (fun b => { b with spouseId := some id }), .ok 200)
    | some none =>
      match db1.believers.find? (fun b => b.bid == id) with
      | some old =>
        match old.spouseId with
        | some osid =>
          (db1.updateBelieverById osid (fun b => { b with spouseId := none }), .ok 200)
        | none => (db1, .ok 200)
      | none => (db1, .ok 200)
    | none => (db1, .ok 200)

/-- Embeds `updateBeliever` (believer.controller.js lines 146-215). -/
def updateBeliever (db : DB) (today : Int) (id : Nat) (raw : UpdateReq) :
    DB × Outcome :=
  if raw.familyIdPresent || raw.isHeadPresent || raw.relationshipToHeadPresent then
    (db, .appError 400
      ("Cannot edit: " ++ String.intercalate ", "
        ((if raw.familyIdPresent then ["familyId"] else []) ++
         (if raw.isHeadPresent then ["isHead"] else []) ++
         (if raw.relationshipToHeadPresent then ["relationshipToHead"] else [])) ++ "."))
  else
    let u0 := sanitizeUpdateData raw
    if !(phoneValid u0.phone) then
      (db, .appError 400 "Phone number must be exactly 10 digits.")
    else
      match u0.dob with
      | some newDob =>
        updateBelieverApply db id (forceMinor (calcAgeIST today newDob) u0)
      | none =>
        match db.believers.find? (fun b => b.bid == id) with
        | none => (db, .appError 404 "Believer not found.")
        | some current =>
          updateBelieverApply db id (forceMinor (calcAgeIST today current.dob) u0)

/-- Embeds `deleteBeliever` — soft delete (believer.controller.js lines 221-244). -/
def deleteBeliever (db : DB) (now : Int) (id : Nat) : DB × Outcome :=
  match db.believers.find? (fun b => b.bid == id && b.isDeleted == false) with
  | none => (db, .appError 404 "Believer not found.")
  | some b =>
    if b.isHead then (db, .isHeadConflict)
    else
      let db1 := db.updateBelieverById id
        (fun x => { x with isDeleted := true, deletedAt := some now })
      match b.spouseId with
      | some sid =>
        (db1.updateBelieverById sid
          (fun x => { x with spouseId := none, spouseName := some b.fullName }), .ok 200)
      | none => (db1, .ok 200)

/-- Embeds `restoreBeliever` (believer.controller.js lines 278-296). -/
def restoreBeliever (db : DB) (id : Nat) : DB × Outcome :=
  match db.believers.find? (fun b => b.bid == id && b.isDeleted == true) with
  | none => (db, .appError 404 "Trashed believer not found.")
  | some b =>
    match db.families.find? (fun f => f.fid == b.familyId && f.isDeleted == false) with
    | none =>
      (db, .appError 409
        "Cannot restore: this believer\x27s family is also in trash. Restore the family first.")
    | some _ =>
      (db.updateBelieverById id (fun x => { x with isDeleted := false, deletedAt := none }),
       .ok 200)

/-- Embeds `deleteFamily` — soft delete with cascade (family.controller.js
lines 223-240); the pre-save hook of models/Family.js lines 44-48 clears the
family code on the same save. -/
def deleteFamily (db : DB) (now : Int) (id : Nat) : DB × Outcome :=
  match db.families.find? (fun f => f.fid == id && f.isDeleted == false) with
  | none => (db, .appError 404 "Family not found.")
  | some _ =>
    let db1 : DB :=
      { db with families := db.families.map (fun f =>
          if f.fid == id then
            { f with isDeleted := true, deletedAt := some now, familyCode := none }
          else f) }
    ({ db1 with believers := db1.believers.map (fun b =>
        if b.familyId == id && b.isDeleted == false then
          { b with isDeleted := true, deletedAt := some now }
        else b) }, .ok 200)

/-- Embeds `restoreFamily` (family.controller.js lines 258-281): recomputes the code
as `FAM-(count+1)` from the count of currently non-deleted families, then
restores every trashed believer of the family. -/
def restoreFamily (db : DB) (id : Nat) : DB × Outcome :=
  match db.families.find? (fun f => f.fid == id && f.isDeleted == true) with
  | none => (db, .appError 404 "Trashed family not found.")
  | some _ =>
    let count := (db.families.filter (fun f => f.isDeleted == false)).length
    let db1 : DB :=
      { db with families := db.families.map (fun f =>
          if f.fid == id then
            { f with isDeleted := false, deletedAt := none,
                     familyCode := some ("FAM-" ++ padCode (count + 1)) }
          else f) }
    ({ db1 with believers := db1.believers.map (fun b =>
        if b.familyId == id && b.isDeleted == true then
          { b with isDeleted := false, deletedAt := none }
        else b) }, .ok 200)

/-- Embeds `assignNewHead` (family.controller.js lines 439-467): demotes only
the `isHead` flag of the prior head — its `relationshipToHead` is left untouched — then
promotes the target and repoints `family.headId`. -/
def assignNewHead (db : DB) (famId : Nat) (newHeadId : Option Nat) :
    DB × Outcome :=
  match newHeadId with
  | none => (db, .appError 400 "New head believer ID is required.")
  | some nh =>
    match db.families.find? (fun f => f.fid == famId && f.isDeleted == false) with
    | none => (db, .appError 404 "Family not found.")
    | some family =>
      match db.believers.find? (fun b =>
          b.bid == nh && b.familyId == family.fid && b.isDeleted == false) with
      | none => (db, .appError 404 "Believer not found in this family.")
      | some _ =>
        let db1 := match family.headId with
          | some h => db.updateBelieverById h (fun b => { b with isHead := false })
          | none => db
        let db2 := db1.updateBelieverById nh
          (fun b => { b with isHead := true, relationshipToHead := "Self" })
        ({ db2 with families := db2.families.map (fun f =>
            if f.fid == famId then { f with headId := some nh } else f) }, .ok 200)

/-- Embeds `permanentDeleteBeliever` (believer.controller.js lines 302-310): only
trashed records qualify; there is no `isHead` guard and no Family write. -/
def permanentDeleteBeliever (db : DB) (id : Nat) : DB × Outcome :=
  match db.believers.find? (fun b => b.bid == id && b.isDeleted == true) with
  | none =>
    (db, .appError 404
      "Believer not found in trash. Only trashed records can be permanently deleted.")
  | some _ =>
    ({ db with believers := db.believers.filter (fun b => !(b.bid == id)) }, .ok 200)

/-- Embeds `emptyBelieverTrash` (believer.controller.js lines 316-323):
`deleteMany({ isDeleted: true })`. -/
def emptyBelieverTrash (db : DB) : DB × Outcome :=
  ({ db with believers := db.believers.filter (fun b => b.isDeleted == false) }, .ok 200)

/-- States reachable from the empty store by the lifecycle operations named in
claim C1 (family creation repaired per claim C8, see `createFamilyWithHead`). -/
inductive Reachable : DB → Prop where
  | init : Reachable DB.empty
  | create (db today req) : Reachable db →
      Reachable (createFamilyWithHead db today req).1
  | add (db today famId data) : Reachable db →
      Reachable (addMember db today famId data).1
  | update (db today id raw) : Reachable db →
      Reachable (updateBeliever db today id raw).1
  | delBel (db now id) : Reachable db → Reachable (deleteBeliever db now id).1
  | resBel (db id) : Reachable db → Reachable (restoreBeliever db id).1
  | delFam (db now id) : Reachable db → Reachable (deleteFamily db now id).1
  | resFam (db id) : Reachable db → Reachable (restoreFamily db id).1
  | assign (db famId nh) : Reachable db → Reachable (assignNewHead db famId nh).1

/-- The head-uniqueness property of claim C1, restricted to what the code
actually maintains: every non-deleted family has exactly one non-deleted
believer with `isHead = true` in it, and that believer has
`relationshipToHead` equal to `Self`. -/
def headInvariant (db : DB) : Prop :=
  ∀ f ∈ db.families, f.isDeleted = false →
    ∃ b ∈ db.believers,
      b.isHead = true ∧ b.familyId = f.fid ∧ b.isDeleted = false ∧
      b.relationshipToHead = "Self" ∧
      ∀ c ∈ db.believers, c.isHead = true → c.familyId = f.fid →
        c.isDeleted = false → c = b

/-- Inductive invariant carried through the `Reachable` induction. -/
structure Inv (db : DB) : Prop where
  famLt : ∀ f ∈ db.families, f.fid < db.nextId
  belLt : ∀ b ∈ db.believers, b.bid < db.nextId
  famNodup : (db.families.map Family.fid).Nodup
  belNodup : (db.believers.map Believer.bid).Nodup
  belFam : ∀ b ∈ db.believers, ∃ f ∈ db.families, f.fid = b.familyId
  headEx : ∀ f ∈ db.families, ∃ b ∈ db.believers,
      f.headId = some b.bid ∧ b.familyId = f.fid ∧ b.isHead = true ∧
      b.relationshipToHead = "Self" ∧ b.isDeleted = f.isDeleted
  headUniq : ∀ f ∈ db.families, ∀ b ∈ db.believers,
      b.familyId = f.fid → b.isHead = true → f.headId = some b.bid

/-- A believer rewrite that keeps the identity and relationship core
(`_id`, `familyId`, `isHead`, `relationshipToHead`, `isDeleted`) intact —
the shape of every spouse-field synchronisation update. -/
def coreKeeps (g : Believer → Believer) : Prop :=
  ∀ b : Believer, (g b).bid = b.bid ∧ (g b).familyId = b.familyId ∧
    (g b).isHead = b.isHead ∧ (g b).relationshipToHead = b.relationshipToHead ∧
    (g b).isDeleted = b.isDeleted

/-! Concrete fixtures used by witnesses and counterexamples. -/

/-- Test fixture: a believer with the given relational fields and fixed
plausible values elsewhere. -/
def testBeliever (bid familyId : Nat) (isHead : Bool) (name : String)
    (dob : Int) (rel ms : String) (sid : Option Nat) : Believer :=
  { bid := bid, familyId := familyId, isHead := isHead, fullName := name,
    dob := dob, gender := "Male", phone := none, email := none,
    memberType := "Member", membershipStatus := "Active", joinDate := none,
    baptized := "No", baptizedDate := none, relationshipToHead := rel,
    relationCustom := none, maritalStatus := ms, spouseId := sid,
    spouseName := none, weddingDate := none, occupationCategory := "Employed",
    educationLevel := none, isDeleted := false, deletedAt := none }

/-- Test fixture: a family document. -/
def testFamily (fid : Nat) (code : Option String) (headId : Option Nat) : Family :=
  { fid := fid, familyCode := code, address := "12 Main St", village := "Kovil",
    district := "Chennai", familyStatus := "Active", headId := headId,
    isDeleted := false, deletedAt := none }

/-- Valid head payload: Arun, born 1970 (age 30 in the year 2000). -/
def headReq1 : HeadReq :=
  { fullName := some "Arun", dob := some 1970, gender := some "Male",
    maritalStatus := some "Single", baptized := some "No",
    memberType := some "Member", occupationCategory := some "Employed" }

/-- Fully valid POST /api/families body. -/
def famReq1 : CreateFamilyReq :=
  { address := some "12 Main St", village := some "Kovil",
    district := some "Chennai", head := some headReq1 }

/-- The same body without a district — the claim-C8 case expected to fail
with 400 naming the district field. -/
def famReqNoDistrict : CreateFamilyReq :=
  { address := some "12 Main St", village := some "Kovil", head := some headReq1 }

/-- Store after creating one family: family 0 with code FAM-0001, head
believer 1. -/
def exDB1 : DB := (createFamilyWithHead DB.empty 2000 famReq1).1

/-- Valid add-member payload: son Ravi, born 1980 (age 20 in 2000). -/
def sonReq : MemberReq :=
  { fullName := some "Ravi", dob := some 1980, gender := some "Male",
    relationshipToHead := some "Son", memberType := some "Member",
    occupationCategory := some "Employed", maritalStatus := some "Single",
    baptized := some "No" }

/-- Store after also adding son Ravi (believer 2) to family 0. -/
def exDB2 : DB := (addMember exDB1 2000 0 sonReq).1

/-- Store after reassigning headship of family 0 to Ravi: Arun keeps
relationshipToHead Self while isHead becomes false. -/
def exDB3 : DB := (assignNewHead exDB2 0 (some 2)).1

/-- Store after soft-deleting family 0 of `exDB1`. -/
def exDB6del : DB := (deleteFamily exDB1 5 0).1

/-- Store after restoring family 0 from `exDB6del`: the recomputed code is
FAM-0001 again. -/
def exDB6res : DB := (restoreFamily exDB6del 0).1

/-- Valid spouse add-member payload: wife Mary, born 1975 (age 25 in 2000). -/
def wifeReq : MemberReq :=
  { fullName := some "Mary", dob := some 1975, gender := some "Female",
    relationshipToHead := some "Wife", memberType := some "Member",
    occupationCategory := some "House-Wife", baptized := some "Yes" }

/-- Store after linking wife Mary (believer 2) to head Arun of family 0. -/
def exDB4 : DB := (addMember exDB1 2000 0 wifeReq).1

/-- A second spouse payload: Martha, born 1970 (age 30 in 2000). -/
def wifeReq2 : MemberReq :=
  { fullName := some "Martha", dob := some 1970, gender := some "Female",
    relationshipToHead := some "Wife", memberType := some "Member",
    occupationCategory := some "House-Wife", baptized := some "Yes" }

/-- Under-18 spouse payload: born 1990 (age 10 in 2000), Wife. -/
def kidWifeReq : MemberReq :=
  { fullName := some "Kala", dob := some 1990, gender := some "Female",
    relationshipToHead := some "Wife", memberType := some "Child",
    occupationCategory := some "Student", maritalStatus := some "Married",
    spouseName := some "Somebody", weddingDate := some 1999,
    baptized := some "No" }

/-- Under-18 non-spouse payload: daughter, born 1990 (age 10 in 2000), with
marital fields supplied that the controller must override. -/
def kidDaughterReq : MemberReq :=
  { fullName := some "Kala", dob := some 1990, gender := some "Female",
    relationshipToHead := some "Daughter", memberType := some "Child",
    occupationCategory := some "Student", maritalStatus := some "Married",
    spouseId := some 1, spouseName := some "Somebody", weddingDate := some 1999,
    baptized := some "No" }

/-- Store for claims C2 and C7: family 0 headed by Arun (believer 3), plus
the married couple Anand (1) and Beulah (2) linked through `spouseId`. -/
def exDB5 : DB :=
  { families := [testFamily 0 (some "FAM-0001") (some 3)]
    believers := [testBeliever 1 0 false "Anand" 1975 "Son" "Married" (some 2),
                  testBeliever 2 0 false "Beulah" 1976 "Daughter" "Married" (some 1),
                  testBeliever 3 0 true "Arun" 1950 "Self" "Single" none]
    nextId := 4 }

/-- Patch setting only dob so that the age becomes 15 in the year 2002. -/
def patchDob15 : UpdateReq := { dob := some 1987 }

/-- Patch explicitly clearing the spouse link (empty string sanitised to null). -/
def patchClearSpouse : UpdateReq := { spouseId := some none }

/-- Store for claim C10: trashed family 0 whose trashed head is believer 1. -/
def exDB10 : DB :=
  { families := [{ testFamily 0 none (some 1) with
                     isDeleted := true, deletedAt := some 9 }]
    believers := [{ testBeliever 1 0 true "Arun" 1950 "Self" "Single" none with
                     isDeleted := true, deletedAt := some 9 }]
    nextId := 2 }

/-! ## Theorems -/

/-- C9: the member-type classifier of backend/utils/helpers.js computes
exactly the specified function — Child below 13, Youth for single believers
aged 13 to 30, Member otherwise — for every integer age and marital status. -/
theorem suggestMemberType_eq_spec (age : Int) (ms : String) :
    suggestMemberType age ms = specMemberType age ms := by
  unfold suggestMemberType specMemberType
  by_cases hs : ms = "Single" <;> simp [hs] <;>
    split_ifs <;> first | rfl | (exfalso; omega)

/-- C8: family creation as coded can never reach its district validation or
persist anything — `district` is read without having been destructured from
the request body, so both a fully valid request and a request merely missing
its district die with the same uncaught ReferenceError (a 500), where the
claim expects a 201 and a 400 naming the district respectively. The store is
left untouched. -/
theorem createFamily_referenceError (db : DB) :
    createFamily db famReq1 = (db, Outcome.referenceError "district") ∧
    createFamily db famReqNoDistrict = (db, Outcome.referenceError "district") := by
  constructor <;>
  · unfold createFamily
    rw [if_neg (by decide), if_neg (by decide)]

/-- C2: clearing a spouse link through `updateBeliever` does NOT clear the
reciprocal side. In the fixture, believer 1 (Anand, Married, spouse 2) is
updated with a dob that makes the age 15: the controller forces
`maritalStatus = Single, spouseId = null` on believer 1, but the backlink
pass re-reads believer 1 after the update, sees the already-nulled
`spouseId`, and leaves believer 2 still pointing at believer 1. The same
happens on an explicit `spouseId = null` patch. The claim (and the intent of
the clearing branch, which reads a variable named `old`) says believer 2
must end with `spouseId = null`. -/
theorem updateBeliever_no_reciprocal_clear :
    ((updateBeliever exDB5 2002 1 patchDob15).2 = Outcome.ok 200) ∧
    (∃ a ∈ (updateBeliever exDB5 2002 1 patchDob15).1.believers,
       a.bid = 1 ∧ a.maritalStatus = "Single" ∧ a.spouseId = none) ∧
    (∃ x ∈ (updateBeliever exDB5 2002 1 patchDob15).1.believers,
       x.bid = 2 ∧ x.spouseId = some 1) ∧
    (∃ x ∈ (updateBeliever exDB5 2002 1 patchClearSpouse).1.believers,
       x.bid = 2 ∧ x.spouseId = some 1) := by
  decide

/-- C10: permanent deletion of a trashed believer succeeds with no `isHead`
guard and never writes to the Family collection: the record disappears, every
family document (including a trashed family whose `headId` references the
removed believer) is byte-identical, and the bulk trash-empty behaves the
same way, removing exactly the trashed believers. -/
theorem permanentDelete_ignores_head_and_families (db : DB) (id : Nat)
    (t : Believer)
    (hfind : db.believers.find? (fun x => x.bid == id && x.isDeleted == true)
      = some t) :
    (permanentDeleteBeliever db id).2 = Outcome.ok 200 ∧
    (permanentDeleteBeliever db id).1.families = db.families ∧
    (∀ b ∈ (permanentDeleteBeliever db id).1.believers, b.bid ≠ id) ∧
    (emptyBelieverTrash db).2 = Outcome.ok 200 ∧
    (emptyBelieverTrash db).1.families = db.families ∧
    (∀ b ∈ (emptyBelieverTrash db).1.believers, b.isDeleted = false) := by
  have h1 : permanentDeleteBeliever db id =
      ({ db with believers := db.believers.filter (fun b => !(b.bid == id)) },
        Outcome.ok 200) := by
    unfold permanentDeleteBeliever
    rw [hfind]
  refine ⟨by rw [h1], by rw [h1], ?_, rfl, rfl, ?_⟩
  · intro b hb
    rw [h1] at hb
    simp only [List.mem_filter] at hb
    simpa using hb.2
  · intro b hb
    simp only [emptyBelieverTrash, List.mem_filter] at hb
    simpa using hb.2

/-- C10 witness: in the fixture store the trashed head believer 1 is
permanently deleted while its trashed family still references believer 1 as
`headId`. -/
theorem permanentDelete_ignores_head_and_families_witness :
    (permanentDeleteBeliever exDB10 1).2 = Outcome.ok 200 ∧
    (permanentDeleteBeliever exDB10 1).1.families = exDB10.families ∧
    (∀ b ∈ (permanentDeleteBeliever exDB10 1).1.believers, b.bid ≠ 1) ∧
    (emptyBelieverTrash exDB10).2 = Outcome.ok 200 ∧
    (emptyBelieverTrash exDB10).1.families = exDB10.families ∧
    (∀ b ∈ (emptyBelieverTrash exDB10).1.believers, b.isDeleted = false) :=
  permanentDelete_ignores_head_and_families exDB10 1
    ({ testBeliever 1 0 true "Arun" 1950 "Self" "Single" none with
        isDeleted := true, deletedAt := some 9 }) (by decide)

/-- C7: soft-deleting a head believer is refused with the dedicated 409
IS_HEAD conflict response and the store untouched; soft-deleting a non-head
marks it deleted with the timestamp and, when a spouse was linked, clears the
spouse side of the link while backfilling the spouse display name with the
deleted believer name. -/
theorem deleteBeliever_spec (db : DB) (now : Int) (id : Nat) (b : Believer)
    (hfind : db.believers.find? (fun x => x.bid == id && x.isDeleted == false)
      = some b)
    (hns : b.spouseId ≠ some b.bid) :
    (b.isHead = true → deleteBeliever db now id = (db, Outcome.isHeadConflict)) ∧
    (b.isHead = false →
      (deleteBeliever db now id).2 = Outcome.ok 200 ∧
      (∃ b2 ∈ (deleteBeliever db now id).1.believers,
        b2.bid = b.bid ∧ b2.isDeleted = true ∧ b2.deletedAt = some now) ∧
      (∀ sid, b.spouseId = some sid → ∀ s ∈ db.believers, s.bid = sid →
        ∃ s2 ∈ (deleteBeliever db now id).1.believers,
          s2.bid = sid ∧ s2.spouseId = none ∧ s2.spouseName = some b.fullName)) := by
  have hmem : b ∈ db.believers := List.mem_of_find?_eq_some hfind
  have hpred := List.find?_some hfind
  simp only [Bool.and_eq_true, beq_iff_eq] at hpred
  obtain ⟨hbid, hdel⟩ := hpred
  constructor
  · intro hh
    simp only [deleteBeliever, hfind]
    rw [if_pos hh]
  · intro hh
    cases hsp : b.spouseId with
    | none =>
      have heq : deleteBeliever db now id =
          (db.updateBelieverById id
            (fun x => { x with isDeleted := true, deletedAt := some now }),
           Outcome.ok 200) := by
        simp only [deleteBeliever, hfind]
        rw [if_neg (by simp [hh]), hsp]
      rw [heq]
      refine ⟨rfl, ⟨{ b with isDeleted := true, deletedAt := some now },
        ?_, rfl, rfl, rfl⟩, ?_⟩
      · simp only [DB.updateBelieverById, List.mem_map]
        exact ⟨b, hmem, by simp [hbid]⟩
      · intro sid hsid
        exact absurd hsid (by simp)
    | some sid =>
      have hsidne : sid ≠ id := by
        intro h
        exact hns (by rw [hsp, h, hbid])
      have heq : deleteBeliever db now id =
          ((db.updateBelieverById id
              (fun x => { x with isDeleted := true, deletedAt := some now })).updateBelieverById
            sid (fun x => { x with spouseId := none, spouseName := some b.fullName }),
           Outcome.ok 200) := by
        simp only [deleteBeliever, hfind]
        rw [if_neg (by simp [hh]), hsp]
      rw [heq]
      refine ⟨rfl, ⟨{ b with isDeleted := true, deletedAt := some now },
        ?_, rfl, rfl, rfl⟩, ?_⟩
      · simp only [DB.updateBelieverById, List.mem_map]
        refine ⟨{ b with isDeleted := true, deletedAt := some now },
          ⟨b, hmem, by simp [hbid]⟩, ?_⟩
        have hidsid : id ≠ sid := fun h => hsidne h.symm
        simp [hbid, hidsid]
      · intro sid2 hsid2 s hsmem hsbid
        injection hsid2 with hsid2
        subst hsid2
        refine ⟨{ s with spouseId := none, spouseName := some b.fullName },
          ?_, hsbid, rfl, rfl⟩
        simp only [DB.updateBelieverById, List.mem_map]
        refine ⟨s, ⟨s, hsmem, ?_⟩, ?_⟩
        · rw [if_neg (by simp [hsbid, hsidne])]
        · rw [if_pos (by simp [hsbid])]

/-- C7 witness: in the fixture store, deleting head believer 3 yields the
IS_HEAD conflict with nothing mutated, and deleting non-head believer 1
(spouse of believer 2) succeeds. -/
theorem deleteBeliever_spec_witness :
    deleteBeliever exDB5 7 3 = (exDB5, Outcome.isHeadConflict) ∧
    (deleteBeliever exDB5 7 1).2 = Outcome.ok 200 :=
  ⟨(deleteBeliever_spec exDB5 7 3
      (testBeliever 3 0 true "Arun" 1950 "Self" "Single" none)
      (by decide) (by decide)).1 rfl,
   (((deleteBeliever_spec exDB5 7 1
      (testBeliever 1 0 false "Anand" 1975 "Son" "Married" (some 2))
      (by decide) (by decide)).2 rfl)).1⟩

/-- C4: adding an adult Wife/Husband to a family whose current head already
has a linked spouse fails with a 409 conflict whose message carries the
existing spouse name, and the store is returned unchanged — no believer is
persisted, so at most one spouse is ever linked to a head. -/
theorem addMember_second_spouse_conflict (db : DB) (today : Int) (famId : Nat)
    (data : MemberReq) (family : Family) (head sp : Believer) (d : Int) (sid : Nat)
    (hfam : db.families.find? (fun f => f.fid == famId && f.isDeleted == false)
      = some family)
    (hname : isBlank data.fullName = false)
    (hdob : data.dob = some d)
    (hgender : isFalsy data.gender = false)
    (hrel : data.relationshipToHead = some "Wife" ∨
      data.relationshipToHead = some "Husband")
    (hmt : isFalsy data.memberType = false)
    (hocc : isFalsy data.occupationCategory = false)
    (hphone : phoneValid data.phone = true)
    (hage : 18 ≤ calcAgeIST today d)
    (hhead : db.believers.find? (fun x => family.headId == some x.bid) = some head)
    (hsp : head.spouseId = some sid)
    (hspfind : db.believers.find? (fun x => x.bid == sid) = some sp) :
    addMember db today famId data =
      (db, Outcome.appError 409
        ("The family head already has a linked spouse (\x22" ++ sp.fullName ++
         "\x22). Cannot add another.")) := by
  simp only [calcAgeIST] at hage
  rcases hrel with hrel | hrel <;>
  · simp only [addMember, hfam]
    rw [if_neg (by simp [hname]), if_neg (by simp [hdob]),
        if_neg (by simp [hgender]), if_neg (by rw [hrel]; decide),
        if_neg (by rw [hrel]; simp), if_neg (by simp [hmt]),
        if_neg (by simp [hocc]), if_neg (by simp [hphone]),
        if_neg (by simp [hdob, calcAgeIST]; omega),
        if_pos (by simp [hrel, hdob, calcAgeIST]; omega)]
    simp only [hhead, Option.getD_some, Option.isNone_some, hsp, Option.isSome_some,
      hspfind]
    rw [if_neg (by simp), if_pos trivial]

/-- C4 witness: adding Martha as a second Wife to family 0, whose head Arun
is already linked to Mary, returns the 409 naming Mary and leaves the store
unchanged. -/
theorem addMember_second_spouse_conflict_witness :
    addMember exDB4 2000 0 wifeReq2 =
      (exDB4, Outcome.appError 409
        ("The family head already has a linked spouse (\x22Mary\x22). Cannot add another.")) := by
  have h := addMember_second_spouse_conflict exDB4 2000 0 wifeReq2
    (testFamily 0 (some "FAM-0001") (some 1))
    ((exDB4.believers.find? (fun x => x.bid == 1)).getD
      (testBeliever 0 0 false "" 0 "" "" none))
    ((exDB4.believers.find? (fun x => x.bid == 2)).getD
      (testBeliever 0 0 false "" 0 "" "" none))
    1970 2 (by decide) (by decide) (by decide) (by decide)
    (Or.inl (by decide)) (by decide) (by decide) (by decide) (by decide)
    (by decide) (by decide) (by decide)
  exact h

/-- Membership in a point update: the hit case. -/
theorem mem_updateBelieverById_hit (db : DB) (id : Nat) (g : Believer → Believer)
    {b : Believer} (hb : b ∈ db.believers) (h : b.bid = id) :
    g b ∈ (db.updateBelieverById id g).believers := by
  have h2 : g b = (fun x => if x.bid == id then g x else x) b := by simp [h]
  rw [h2]
  exact List.mem_map_of_mem _ hb

/-- Membership in a point update: the miss case. -/
theorem mem_updateBelieverById_miss (db : DB) (id : Nat) (g : Believer → Believer)
    {b : Believer} (hb : b ∈ db.believers) (h : b.bid ≠ id) :
    b ∈ (db.updateBelieverById id g).believers := by
  have h2 : b = (fun x => if x.bid == id then g x else x) b := by simp [h]
  rw [h2]
  exact List.mem_map_of_mem _ hb

@[simp] theorem mkMemberDoc_bid (famId mid : Nat) (data : MemberReq) (age : Int)
    (ms : Option String) (sid : Option Nat) (sname : Option String) (wd : Option Int) :
    (mkMemberDoc famId mid data age ms sid sname wd).bid = mid := rfl

@[simp] theorem mkMemberDoc_familyId (famId mid : Nat) (data : MemberReq) (age : Int)
    (ms : Option String) (sid : Option Nat) (sname : Option String) (wd : Option Int) :
    (mkMemberDoc famId mid data age ms sid sname wd).familyId = famId := rfl

@[simp] theorem mkMemberDoc_isHead (famId mid : Nat) (data : MemberReq) (age : Int)
    (ms : Option String) (sid : Option Nat) (sname : Option String) (wd : Option Int) :
    (mkMemberDoc famId mid data age ms sid sname wd).isHead = false := rfl

@[simp] theorem mkMemberDoc_fullName (famId mid : Nat) (data : MemberReq) (age : Int)
    (ms : Option String) (sid : Option Nat) (sname : Option String) (wd : Option Int) :
    (mkMemberDoc famId mid data age ms sid sname wd).fullName
      = strTrim (data.fullName.getD "") := rfl

@[simp] theorem mkMemberDoc_maritalStatus (famId mid : Nat) (data : MemberReq)
    (age : Int) (ms : Option String) (sid : Option Nat) (sname : Option String)
    (wd : Option Int) :
    (mkMemberDoc famId mid data age ms sid sname wd).maritalStatus
      = jsOrDefault ms "Single" := rfl

@[simp] theorem mkMemberDoc_spouseId (famId mid : Nat) (data : MemberReq) (age : Int)
    (ms : Option String) (sid : Option Nat) (sname : Option String) (wd : Option Int) :
    (mkMemberDoc famId mid data age ms sid sname wd).spouseId = sid := rfl

@[simp] theorem mkMemberDoc_spouseName (famId mid : Nat) (data : MemberReq) (age : Int)
    (ms : Option String) (sid : Option Nat) (sname : Option String) (wd : Option Int) :
    (mkMemberDoc famId mid data age ms sid sname wd).spouseName = jsStrOpt sname := rfl

@[simp] theorem mkMemberDoc_weddingDate (famId mid : Nat) (data : MemberReq) (age : Int)
    (ms : Option String) (sid : Option Nat) (sname : Option String) (wd : Option Int) :
    (mkMemberDoc famId mid data age ms sid sname wd).weddingDate
      = (if ms == some "Married" && wd.isSome then wd else none) := rfl

@[simp] theorem mkMemberDoc_isDeleted (famId mid : Nat) (data : MemberReq) (age : Int)
    (ms : Option String) (sid : Option Nat) (sname : Option String) (wd : Option Int) :
    (mkMemberDoc famId mid data age ms sid sname wd).isDeleted = false := rfl

/-- C3: adding an adult Wife/Husband to a family whose head has no linked
spouse succeeds with 201 and leaves the new member and the head symmetrically
linked — the member got the head as spouse with the head name denormalised,
and the head got the member as spouse, was forced Married, and carries the
member name. -/
theorem addMember_spouse_symmetry (db : DB) (today : Int) (famId : Nat)
    (data : MemberReq) (family : Family) (head : Believer) (d : Int)
    (hfam : db.families.find? (fun f => f.fid == famId && f.isDeleted == false)
      = some family)
    (hname : isBlank data.fullName = false)
    (hdob : data.dob = some d)
    (hgender : isFalsy data.gender = false)
    (hrel : data.relationshipToHead = some "Wife" ∨
      data.relationshipToHead = some "Husband")
    (hmt : isFalsy data.memberType = false)
    (hocc : isFalsy data.occupationCategory = false)
    (hphone : phoneValid data.phone = true)
    (hage : 18 ≤ calcAgeIST today d)
    (hhead : db.believers.find? (fun x => family.headId == some x.bid) = some head)
    (hsp : head.spouseId = none)
    (hfresh : ∀ x ∈ db.believers, x.bid ≠ db.nextId) :
    (addMember db today famId data).2 = Outcome.ok 201 ∧
    (∃ m ∈ (addMember db today famId data).1.believers,
      m.bid = db.nextId ∧ m.isHead = false ∧ m.familyId = family.fid ∧
      m.maritalStatus = "Married" ∧ m.spouseId = some head.bid ∧
      m.spouseName = some head.fullName) ∧
    (∃ h2 ∈ (addMember db today famId data).1.believers,
      h2.bid = head.bid ∧ h2.spouseId = some db.nextId ∧
      h2.maritalStatus = "Married" ∧
      h2.spouseName = some (strTrim (data.fullName.getD ""))) := by
  simp only [calcAgeIST] at hage
  have hheadmem : head ∈ db.believers := List.mem_of_find?_eq_some hhead
  have hheadid : family.headId = some head.bid := by
    have := List.find?_some hhead
    simpa [beq_iff_eq] using this
  have hheadfresh : head.bid ≠ db.nextId := hfresh head hheadmem
  rcases hrel with hrel | hrel <;>
  · simp only [addMember, hfam]
    rw [if_neg (by simp [hname]), if_neg (by simp [hdob]),
        if_neg (by simp [hgender]), if_neg (by rw [hrel]; decide),
        if_neg (by rw [hrel]; simp), if_neg (by simp [hmt]),
        if_neg (by simp [hocc]), if_neg (by simp [hphone]),
        if_neg (by simp [hdob, calcAgeIST]; omega),
        if_pos (by simp [hrel, hdob, calcAgeIST]; omega)]
    simp only [hhead, Option.getD_some, Option.isNone_some, hsp, Option.isSome_none]
    rw [if_neg (by simp), if_neg (by simp)]
    refine ⟨rfl, ?_, ?_⟩
    · exact ⟨_, mem_updateBelieverById_miss _ _ _
        (mem_updateBelieverById_hit _ _ _
          (List.mem_append_right _ (List.mem_singleton_self _)) rfl)
        hheadfresh.symm,
        rfl, rfl, rfl, rfl, hheadid, rfl⟩
    · exact ⟨_, mem_updateBelieverById_hit _ _ _
        (mem_updateBelieverById_miss _ _ _
          (List.mem_append_left _ hheadmem) hheadfresh) rfl,
        rfl, rfl, rfl, rfl⟩

/-- C3 witness: adding wife Mary (age 25) to family 0 of the one-family
fixture store, whose head Arun has no spouse, succeeds and links both sides. -/
theorem addMember_spouse_symmetry_witness :
    (addMember exDB1 2000 0 wifeReq).2 = Outcome.ok 201 ∧
    (∃ m ∈ (addMember exDB1 2000 0 wifeReq).1.believers,
      m.bid = exDB1.nextId ∧ m.isHead = false ∧
      m.familyId = (testFamily 0 (some "FAM-0001") (some 1)).fid ∧
      m.maritalStatus = "Married" ∧
      m.spouseId = some (testBeliever 1 0 true "Arun" 1970 "Self" "Single" none).bid ∧
      m.spouseName = some (testBeliever 1 0 true "Arun" 1970 "Self" "Single" none).fullName) ∧
    (∃ h2 ∈ (addMember exDB1 2000 0 wifeReq).1.believers,
      h2.bid = (testBeliever 1 0 true "Arun" 1970 "Self" "Single" none).bid ∧
      h2.spouseId = some exDB1.nextId ∧ h2.maritalStatus = "Married" ∧
      h2.spouseName = some (strTrim (wifeReq.fullName.getD ""))) :=
  addMember_spouse_symmetry exDB1 2000 0 wifeReq
    (testFamily 0 (some "FAM-0001") (some 1))
    (testBeliever 1 0 true "Arun" 1970 "Self" "Single" none) 1975
    (by decide) (by decide) (by decide) (by decide) (Or.inl (by decide))
    (by decide) (by decide) (by decide) (by decide) (by decide) (by decide)
    (by decide)

/-- C5: an add-member request whose computed age is below 18 is hard-rejected
with a 400 when the relationship is Wife or Husband (nothing persisted), and
otherwise creates the believer with maritalStatus forced to Single and no
spouse link, spouse name or wedding date, regardless of the marital and
spouse fields supplied in the request. -/
theorem addMember_minor_rules (db : DB) (today : Int) (famId : Nat)
    (data : MemberReq) (family : Family) (d : Int) (rel : String)
    (hfam : db.families.find? (fun f => f.fid == famId && f.isDeleted == false)
      = some family)
    (hname : isBlank data.fullName = false)
    (hdob : data.dob = some d)
    (hgender : isFalsy data.gender = false)
    (hrel : data.relationshipToHead = some rel)
    (hember : rel ≠ "")
    (hself : rel ≠ "Self")
    (hother : rel = "Other" → isBlank data.relationCustom = false)
    (hmt : isFalsy data.memberType = false)
    (hocc : isFalsy data.occupationCategory = false)
    (hphone : phoneValid data.phone = true)
    (hage : calcAgeIST today d < 18) :
    ((rel = "Wife" ∨ rel = "Husband") →
      addMember db today famId data =
        (db, Outcome.appError 400
          "A person under 18 cannot be added as Wife or Husband.")) ∧
    (rel ≠ "Wife" → rel ≠ "Husband" →
      (addMember db today famId data).2 = Outcome.ok 201 ∧
      ∃ m ∈ (addMember db today famId data).1.believers,
        m.bid = db.nextId ∧ m.maritalStatus = "Single" ∧ m.spouseId = none ∧
        m.spouseName = none ∧ m.weddingDate = none) := by
  have hltb : decide (calcAgeIST today (data.dob.getD 0) < 18) = true := by
    rw [hdob]
    exact decide_eq_true hage
  have hgeb : decide (calcAgeIST today (data.dob.getD 0) ≥ 18) = false := by
    rw [hdob]
    simp only [Option.getD_some]
    exact decide_eq_false (by omega)
  have hlt : calcAgeIST today (data.dob.getD 0) < 18 := by
    rw [hdob]
    exact hage
  constructor
  · intro hwh
    rcases hwh with rfl | rfl <;>
    · simp only [addMember, hfam]
      rw [if_neg (by simp [hname]), if_neg (by simp [hdob]),
          if_neg (by simp [hgender]), if_neg (by rw [hrel]; decide),
          if_neg (by rw [hrel]; simp), if_neg (by simp [hmt]),
          if_neg (by simp [hocc]), if_neg (by simp [hphone]),
          if_pos (by simp [hltb, hrel])]
  · intro hw hh
    simp only [addMember, hfam]
    rw [if_neg (by simp [hname]), if_neg (by simp [hdob]),
        if_neg (by simp [hgender]),
        if_neg (by simp [hrel, isFalsy, hember, hself]),
        if_neg (by by_cases ho : rel = "Other" <;> simp [hrel, ho, hother]),
        if_neg (by simp [hmt]), if_neg (by simp [hocc]), if_neg (by simp [hphone]),
        if_neg (by simp [hrel, hw, hh]), if_neg (by simp [hrel, hw, hh]),
        if_neg (by simp [hgeb]), if_neg (by simp [hgeb]),
        if_pos hlt, if_pos hlt, if_pos hlt, if_pos hlt]
    exact ⟨rfl, _, List.mem_append_right _ (List.mem_singleton_self _),
      rfl, rfl, rfl, rfl, rfl⟩

/-- C5 witness: in the one-family fixture, a 10-year-old Wife request is
rejected with the 400, while a 10-year-old Daughter request carrying
Married/spouse/wedding fields is created as Single with all spouse fields
absent. -/
theorem addMember_minor_rules_witness :
    (addMember exDB1 2000 0 kidWifeReq =
      (exDB1, Outcome.appError 400
        "A person under 18 cannot be added as Wife or Husband.")) ∧
    ((addMember exDB1 2000 0 kidDaughterReq).2 = Outcome.ok 201 ∧
      ∃ m ∈ (addMember exDB1 2000 0 kidDaughterReq).1.believers,
        m.bid = exDB1.nextId ∧ m.maritalStatus = "Single" ∧ m.spouseId = none ∧
        m.spouseName = none ∧ m.weddingDate = none) :=
  ⟨(addMember_minor_rules exDB1 2000 0 kidWifeReq
      (testFamily 0 (some "FAM-0001") (some 1)) 1990 "Wife"
      (by decide) (by decide) (by decide) (by decide) (by decide) (by decide)
      (by decide) (fun h => absurd h (by decide)) (by decide) (by decide)
      (by decide) (by decide)).1 (Or.inl rfl),
   (addMember_minor_rules exDB1 2000 0 kidDaughterReq
      (testFamily 0 (some "FAM-0001") (some 1)) 1990 "Daughter"
      (by decide) (by decide) (by decide) (by decide) (by decide) (by decide)
      (by decide) (fun h => absurd h (by decide)) (by decide) (by decide)
      (by decide) (by decide)).2 (by decide) (by decide)⟩

/-- A find? on a fid-keyed list with pairwise distinct fids locates a given
member whenever the predicate forces its key and holds of it. -/
theorem find?_eq_of_key_nodup {l : List Family}
    (hnd : (l.map Family.fid).Nodup) {f : Family} (hf : f ∈ l)
    (p : Family → Bool) (hkey : ∀ g, p g = true → g.fid = f.fid)
    (hpf : p f = true) : l.find? p = some f := by
  induction l with
  | nil => cases hf
  | cons a t ih =>
    simp only [List.map_cons, List.nodup_cons] at hnd
    rcases List.mem_cons.mp hf with rfl | hft
    · rw [List.find?_cons_of_pos _ hpf]
    · by_cases hpa : p a = true
      · exfalso
        apply hnd.1
        rw [hkey a hpa]
        exact List.mem_map_of_mem Family.fid hft
      · rw [List.find?_cons_of_neg _ (by simpa using hpa)]
        exact ih hnd.2 hft

/-- Mapping the cascade soft-delete over families whose fid all differ from
the target is the identity. -/
theorem delete_map_id (t : List Family) (i : Nat) (now : Int)
    (h : ∀ g ∈ t, g.fid ≠ i) :
    t.map (fun g => if g.fid == i then
        { g with isDeleted := true, deletedAt := some now, familyCode := none }
      else g) = t := by
  induction t with
  | nil => rfl
  | cons a t ih =>
    simp only [List.map_cons]
    rw [if_neg (by simp [h a (List.mem_cons_self a t)]),
        ih (fun g hg => h g (List.mem_cons_of_mem a hg))]

/-- Soft-deleting one non-deleted family drops the non-deleted count by one. -/
theorem count_nondeleted_after_delete (l : List Family)
    (hnd : (l.map Family.fid).Nodup) (f : Family) (hf : f ∈ l)
    (hdel : f.isDeleted = false) (now : Int) :
    ((l.map (fun g => if g.fid == f.fid then
        { g with isDeleted := true, deletedAt := some now, familyCode := none }
      else g)).filter (fun g => g.isDeleted == false)).length
    = (l.filter (fun g => g.isDeleted == false)).length - 1 := by
  induction l with
  | nil => cases hf
  | cons a t ih =>
    simp only [List.map_cons, List.nodup_cons] at hnd
    rcases List.mem_cons.mp hf with rfl | hft
    · simp only [List.map_cons]
      rw [if_pos (by simp)]
      rw [delete_map_id t f.fid now (fun g hg h => hnd.1 (by
        rw [← h]; exact List.mem_map_of_mem Family.fid hg))]
      rw [List.filter_cons_of_neg (by simp), List.filter_cons_of_pos (by simp [hdel])]
      simp
    · have hane : a.fid ≠ f.fid := fun h => hnd.1 (by
        rw [h]; exact List.mem_map_of_mem Family.fid hft)
      have hflen : 0 < (t.filter (fun g => g.isDeleted == false)).length :=
        List.length_pos_of_mem (List.mem_filter.mpr ⟨hft, by simp [hdel]⟩)
      simp only [List.map_cons]
      rw [if_neg (by simp [hane])]
      by_cases ha : a.isDeleted = false
      · rw [List.filter_cons_of_pos (by simp [ha]), List.filter_cons_of_pos (by simp [ha])]
        simp only [List.length_cons]
        rw [ih hnd.2 hft]
        omega
      · rw [List.filter_cons_of_neg (by simp [ha]), List.filter_cons_of_neg (by simp [ha])]
        exact ih hnd.2 hft

/-- C6 (amended): soft-deleting a family and restoring it returns it to
isDeleted = false with deletedAt cleared and a freshly recomputed sequential
code FAM-n where n is the count of non-deleted families at restore time plus
one (equal to the non-deleted count before the delete, so the code can
coincide with the original); every believer of the family that was
cascade-deleted is returned to isDeleted = false with its deletion timestamp
cleared. -/
theorem deleteRestoreFamily_roundtrip (db : DB) (now : Int) (f : Family)
    (hnd : (db.families.map Family.fid).Nodup)
    (hf : f ∈ db.families)
    (hdel : f.isDeleted = false) :
    (deleteFamily db now f.fid).2 = Outcome.ok 200 ∧
    (restoreFamily (deleteFamily db now f.fid).1 f.fid).2 = Outcome.ok 200 ∧
    (∃ f2 ∈ (restoreFamily (deleteFamily db now f.fid).1 f.fid).1.families,
      f2.fid = f.fid ∧ f2.isDeleted = false ∧ f2.deletedAt = none ∧
      f2.familyCode = some ("FAM-" ++ padCode
        ((db.families.filter (fun g => g.isDeleted == false)).length))) ∧
    (∀ b ∈ db.believers, b.familyId = f.fid → b.isDeleted = false →
      ∃ b2 ∈ (restoreFamily (deleteFamily db now f.fid).1 f.fid).1.believers,
        b2.bid = b.bid ∧ b2.isDeleted = false ∧ b2.deletedAt = none) := by
  have hfind1 : db.families.find?
      (fun g => g.fid == f.fid && g.isDeleted == false) = some f :=
    find?_eq_of_key_nodup hnd hf _
      (fun g hg => by simp only [Bool.and_eq_true, beq_iff_eq] at hg; exact hg.1)
      (by simp [hdel])
  have heq1 : deleteFamily db now f.fid =
      ({ families := db.families.map (fun g => if g.fid == f.fid then
            { g with isDeleted := true, deletedAt := some now, familyCode := none }
          else g),
         believers := db.believers.map (fun b =>
          if b.familyId == f.fid && b.isDeleted == false then
            { b with isDeleted := true, deletedAt := some now }
          else b),
         nextId := db.nextId }, Outcome.ok 200) := by
    simp only [deleteFamily, hfind1]
  have hnd1 : (((deleteFamily db now f.fid).1.families).map Family.fid)
      = db.families.map Family.fid := by
    rw [heq1, List.map_map]
    exact List.map_congr_left (fun a _ => by
      by_cases h : a.fid = f.fid <;> simp [h])
  have hmem1 :
      ({ f with isDeleted := true, deletedAt := some now, familyCode := none } : Family)
        ∈ (deleteFamily db now f.fid).1.families := by
    rw [heq1]
    have h2 :
        ({ f with isDeleted := true, deletedAt := some now, familyCode := none } : Family)
          = (fun g => if g.fid == f.fid then
              { g with isDeleted := true, deletedAt := some now, familyCode := none }
            else g) f := by simp
    rw [h2]
    exact List.mem_map_of_mem _ hf
  have hfind2 : (deleteFamily db now f.fid).1.families.find?
      (fun g => g.fid == f.fid && g.isDeleted == true) =
      some { f with isDeleted := true, deletedAt := some now, familyCode := none } := by
    apply find?_eq_of_key_nodup (by rw [hnd1]; exact hnd) hmem1
    · intro g hg
      simp only [Bool.and_eq_true, beq_iff_eq] at hg
      exact hg.1
    · simp
  have hcount : ((deleteFamily db now f.fid).1.families.filter
      (fun g => g.isDeleted == false)).length + 1
      = (db.families.filter (fun g => g.isDeleted == false)).length := by
    rw [heq1]
    have hpos : 0 < (db.families.filter (fun g => g.isDeleted == false)).length :=
      List.length_pos_of_mem (List.mem_filter.mpr ⟨hf, by simp [hdel]⟩)
    rw [count_nondeleted_after_delete db.families hnd f hf hdel now]
    omega
  refine ⟨by rw [heq1], ?_, ?_, ?_⟩
  · simp only [restoreFamily, hfind2]
  · simp only [restoreFamily, hfind2]
    refine ⟨{ f with isDeleted := false, deletedAt := none, familyCode := some ("FAM-" ++ padCode (((deleteFamily db now f.fid).1.families.filter (fun y => y.isDeleted == false)).length + 1)) }, ?_, rfl, rfl, rfl, by rw [hcount]⟩
    have h2 : ({ f with isDeleted := false, deletedAt := none, familyCode := some ("FAM-" ++ padCode (((deleteFamily db now f.fid).1.families.filter (fun y => y.isDeleted == false)).length + 1)) } : Family) = (fun x => if x.fid == f.fid then { x with isDeleted := false, deletedAt := none, familyCode := some ("FAM-" ++ padCode (((deleteFamily db now f.fid).1.families.filter (fun y => y.isDeleted == false)).length + 1)) } else x) ({ f with isDeleted := true, deletedAt := some now, familyCode := none } : Family) := by simp
    rw [h2]
    exact List.mem_map_of_mem _ hmem1
  · intro b hb hbf hbd
    simp only [restoreFamily, hfind2]
    refine ⟨{ b with isDeleted := false, deletedAt := none }, ?_, rfl, rfl, rfl⟩
    have h3 : ({ b with isDeleted := false, deletedAt := none } : Believer)
        = (fun x => if x.familyId == f.fid && x.isDeleted == true then
            { x with isDeleted := false, deletedAt := none } else x)
          { b with isDeleted := true, deletedAt := some now } := by
      simp [hbf]
    rw [h3]
    apply List.mem_map_of_mem
    rw [heq1]
    have h4 : ({ b with isDeleted := true, deletedAt := some now } : Believer)
        = (fun x => if x.familyId == f.fid && x.isDeleted == false then
            { x with isDeleted := true, deletedAt := some now } else x) b := by
      simp [hbf, hbd]
    rw [h4]
    exact List.mem_map_of_mem _ hb

/-- C6 counterexample: in the one-family fixture the family is created with
code FAM-0001; after soft-delete (which clears the code) and restore, the
recomputed code is FAM-0001 again — not different from the original, contrary
to the claim. -/
theorem restoreFamily_code_reuse :
    (∃ g ∈ exDB1.families, g.fid = 0 ∧ g.familyCode = some "FAM-0001") ∧
    (∃ g ∈ exDB6res.families, g.fid = 0 ∧ g.isDeleted = false ∧
      g.familyCode = some "FAM-0001") := by
  decide

/-- C6 witness: the round-trip theorem applied to the one-family fixture. -/
theorem deleteRestoreFamily_roundtrip_witness :
    (deleteFamily exDB1 5 0).2 = Outcome.ok 200 ∧
    (restoreFamily (deleteFamily exDB1 5 0).1 0).2 = Outcome.ok 200 ∧
    (∃ f2 ∈ (restoreFamily (deleteFamily exDB1 5 0).1 0).1.families,
      f2.fid = 0 ∧ f2.isDeleted = false ∧ f2.deletedAt = none ∧
      f2.familyCode = some ("FAM-" ++ padCode
        ((exDB1.families.filter (fun g => g.isDeleted == false)).length))) ∧
    (∀ b ∈ exDB1.believers, b.familyId = 0 → b.isDeleted = false →
      ∃ b2 ∈ (restoreFamily (deleteFamily exDB1 5 0).1 0).1.believers,
        b2.bid = b.bid ∧ b2.isDeleted = false ∧ b2.deletedAt = none) :=
  deleteRestoreFamily_roundtrip exDB1 5 (testFamily 0 (some "FAM-0001") (some 1))
    (by decide) (by decide) (by decide)

/-- Believers with pairwise distinct ids are determined by their id. -/
theorem bid_inj {l : List Believer} (h : (l.map Believer.bid).Nodup)
    {a b : Believer} (ha : a ∈ l) (hb : b ∈ l) (hk : a.bid = b.bid) : a = b :=
  List.inj_on_of_nodup_map h ha hb hk

/-- Families with pairwise distinct ids are determined by their id. -/
theorem fid_inj {l : List Family} (h : (l.map Family.fid).Nodup)
    {a b : Family} (ha : a ∈ l) (hb : b ∈ l) (hk : a.fid = b.fid) : a = b :=
  List.inj_on_of_nodup_map h ha hb hk

/-- The empty store satisfies the inductive invariant. -/
theorem inv_empty : Inv DB.empty := by
  constructor <;> simp [DB.empty]

/-- A point update that keeps the identity and relationship core of every
believer preserves the inductive invariant. -/
theorem inv_updateCore (db : DB) (id : Nat) (g : Believer → Believer)
    (hg : coreKeeps g) (hinv : Inv db) : Inv (db.updateBelieverById id g) := by
  have hu : ∀ b : Believer,
      ((if b.bid == id then g b else b).bid = b.bid) ∧
      ((if b.bid == id then g b else b).familyId = b.familyId) ∧
      ((if b.bid == id then g b else b).isHead = b.isHead) ∧
      ((if b.bid == id then g b else b).relationshipToHead = b.relationshipToHead) ∧
      ((if b.bid == id then g b else b).isDeleted = b.isDeleted) := by
    intro b
    by_cases h : (b.bid == id) = true
    · rw [if_pos h]
      exact hg b
    · rw [if_neg h]
      exact ⟨rfl, rfl, rfl, rfl, rfl⟩
  constructor
  · exact hinv.famLt
  · intro b hb
    simp only [DB.updateBelieverById, List.mem_map] at hb
    obtain ⟨a, ha, rfl⟩ := hb
    rw [(hu a).1]
    exact hinv.belLt a ha
  · exact hinv.famNodup
  · have : ((db.updateBelieverById id g).believers.map Believer.bid)
        = db.believers.map Believer.bid := by
      simp only [DB.updateBelieverById, List.map_map]
      exact List.map_congr_left (fun a _ => (hu a).1)
    rw [this]
    exact hinv.belNodup
  · intro b hb
    simp only [DB.updateBelieverById, List.mem_map] at hb
    obtain ⟨a, ha, rfl⟩ := hb
    rw [(hu a).2.1]
    exact hinv.belFam a ha
  · intro f hf
    obtain ⟨w, hwmem, hwhid, hwfam, hwhead, hwrel, hwdel⟩ := hinv.headEx f hf
    refine ⟨(if w.bid == id then g w else w), ?_, ?_, ?_, ?_, ?_, ?_⟩
    · exact List.mem_map_of_mem _ hwmem
    · rw [(hu w).1]
      exact hwhid
    · rw [(hu w).2.1]
      exact hwfam
    · rw [(hu w).2.2.1]
      exact hwhead
    · rw [(hu w).2.2.2.1]
      exact hwrel
    · rw [(hu w).2.2.2.2]
      exact hwdel
  · intro f hf b hb hbfam hbhead
    simp only [DB.updateBelieverById, List.mem_map] at hb
    obtain ⟨a, ha, rfl⟩ := hb
    rw [(hu a).1]
    exact hinv.headUniq f hf a ha (by rw [← (hu a).2.1]; exact hbfam)
      (by rw [← (hu a).2.2.1]; exact hbhead)

/-- Flipping the trash flags of a believer that is not a head preserves the
inductive invariant. -/
theorem inv_setDeleted (db : DB) (id : Nat) (val : Bool) (ts : Option Int)
    (hinv : Inv db)
    (hnh : ∀ b ∈ db.believers, b.bid = id → b.isHead = false) :
    Inv (db.updateBelieverById id
      (fun x => { x with isDeleted := val, deletedAt := ts })) := by
  have hu : ∀ b : Believer,
      ((if b.bid == id then ({ b with isDeleted := val, deletedAt := ts } : Believer)
        else b).bid = b.bid) ∧
      ((if b.bid == id then ({ b with isDeleted := val, deletedAt := ts } : Believer)
        else b).familyId = b.familyId) ∧
      ((if b.bid == id then ({ b with isDeleted := val, deletedAt := ts } : Believer)
        else b).isHead = b.isHead) ∧
      ((if b.bid == id then ({ b with isDeleted := val, deletedAt := ts } : Believer)
        else b).relationshipToHead = b.relationshipToHead) := by
    intro b
    by_cases h : (b.bid == id) = true
    · rw [if_pos h]
      exact ⟨rfl, rfl, rfl, rfl⟩
    · rw [if_neg h]
      exact ⟨rfl, rfl, rfl, rfl⟩
  constructor
  · exact hinv.famLt
  · intro b hb
    simp only [DB.updateBelieverById, List.mem_map] at hb
    obtain ⟨a, ha, rfl⟩ := hb
    rw [(hu a).1]
    exact hinv.belLt a ha
  · exact hinv.famNodup
  · have : ((db.updateBelieverById id
        (fun x => { x with isDeleted := val, deletedAt := ts })).believers.map
          Believer.bid) = db.believers.map Believer.bid := by
      simp only [DB.updateBelieverById, List.map_map]
      exact List.map_congr_left (fun a _ => (hu a).1)
    rw [this]
    exact hinv.belNodup
  · intro b hb
    simp only [DB.updateBelieverById, List.mem_map] at hb
    obtain ⟨a, ha, rfl⟩ := hb
    rw [(hu a).2.1]
    exact hinv.belFam a ha
  · intro f hf
    obtain ⟨w, hwmem, hwhid, hwfam, hwhead, hwrel, hwdel⟩ := hinv.headEx f hf
    have hwid : w.bid ≠ id := by
      intro h
      rw [hnh w hwmem h] at hwhead
      cases hwhead
    refine ⟨w, ?_, hwhid, hwfam, hwhead, hwrel, hwdel⟩
    have h2 : w = (fun x : Believer => if x.bid == id then
        ({ x with isDeleted := val, deletedAt := ts } : Believer) else x) w := by
      simp [hwid]
    rw [h2]
    exact List.mem_map_of_mem _ hwmem
  · intro f hf b hb hbfam hbhead
    simp only [DB.updateBelieverById, List.mem_map] at hb
    obtain ⟨a, ha, rfl⟩ := hb
    rw [(hu a).1]
    exact hinv.headUniq f hf a ha (by rw [← (hu a).2.1]; exact hbfam)
      (by rw [← (hu a).2.2.1]; exact hbhead)

/-- Cascading a trash-flag flip from one family (located by id) to its
believers preserves the inductive invariant. `famG`/`belG` must keep keys,
head references and relationship labels, and set `isDeleted` to `newDel`;
`oldDel` is the status the cascade condition selects; the located family must
currently carry `oldDel`. -/
theorem inv_cascade (db : DB) (id : Nat) (oldDel newDel : Bool)
    (famG : Family → Family) (belG : Believer → Believer) (hinv : Inv db)
    (hfamG : ∀ f : Family, (famG f).fid = f.fid ∧ (famG f).headId = f.headId ∧
      (famG f).isDeleted = newDel)
    (hbelG : ∀ b : Believer, (belG b).bid = b.bid ∧ (belG b).familyId = b.familyId ∧
      (belG b).isHead = b.isHead ∧ (belG b).relationshipToHead = b.relationshipToHead ∧
      (belG b).isDeleted = newDel)
    (htarget : ∀ f ∈ db.families, f.fid = id → f.isDeleted = oldDel) :
    Inv { families := db.families.map (fun f => if f.fid == id then famG f else f),
          believers := db.believers.map (fun b =>
            if b.familyId == id && b.isDeleted == oldDel then belG b else b),
          nextId := db.nextId } := by
  have hufid : ∀ f : Family, ((if f.fid == id then famG f else f).fid = f.fid) ∧
      ((if f.fid == id then famG f else f).headId = f.headId) := by
    intro f
    by_cases h : (f.fid == id) = true
    · rw [if_pos h]
      exact ⟨(hfamG f).1, (hfamG f).2.1⟩
    · rw [if_neg h]
      exact ⟨rfl, rfl⟩
  have hub : ∀ b : Believer,
      ((if b.familyId == id && b.isDeleted == oldDel then belG b else b).bid = b.bid) ∧
      ((if b.familyId == id && b.isDeleted == oldDel then belG b else b).familyId
        = b.familyId) ∧
      ((if b.familyId == id && b.isDeleted == oldDel then belG b else b).isHead
        = b.isHead) ∧
      ((if b.familyId == id && b.isDeleted == oldDel then belG b else b).relationshipToHead
        = b.relationshipToHead) := by
    intro b
    by_cases h : (b.familyId == id && b.isDeleted == oldDel) = true
    · rw [if_pos h]
      exact ⟨(hbelG b).1, (hbelG b).2.1, (hbelG b).2.2.1, (hbelG b).2.2.2.1⟩
    · rw [if_neg h]
      exact ⟨rfl, rfl, rfl, rfl⟩
  have hfid_map : (db.families.map (fun f => if f.fid == id then famG f else f)).map
      Family.fid = db.families.map Family.fid := by
    rw [List.map_map]
    exact List.map_congr_left (fun a _ => (hufid a).1)
  have hbid_map : (db.believers.map (fun b =>
      if b.familyId == id && b.isDeleted == oldDel then belG b else b)).map
      Believer.bid = db.believers.map Believer.bid := by
    rw [List.map_map]
    exact List.map_congr_left (fun a _ => (hub a).1)
  constructor
  · intro f hf
    simp only [List.mem_map] at hf
    obtain ⟨a, ha, rfl⟩ := hf
    rw [(hufid a).1]
    exact hinv.famLt a ha
  · intro b hb
    simp only [List.mem_map] at hb
    obtain ⟨a, ha, rfl⟩ := hb
    rw [(hub a).1]
    exact hinv.belLt a ha
  · show ((db.families.map (fun f => if f.fid == id then famG f else f)).map
      Family.fid).Nodup
    rw [hfid_map]
    exact hinv.famNodup
  · show ((db.believers.map (fun b =>
      if b.familyId == id && b.isDeleted == oldDel then belG b else b)).map
      Believer.bid).Nodup
    rw [hbid_map]
    exact hinv.belNodup
  · intro b hb
    simp only [List.mem_map] at hb
    obtain ⟨a, ha, rfl⟩ := hb
    obtain ⟨f, hfmem, hffid⟩ := hinv.belFam a ha
    refine ⟨(if f.fid == id then famG f else f), List.mem_map_of_mem _ hfmem, ?_⟩
    rw [(hufid f).1, (hub a).2.1]
    exact hffid
  · intro f2 hf2
    simp only [List.mem_map] at hf2
    obtain ⟨f, hfmem, rfl⟩ := hf2
    obtain ⟨w, hwmem, hwhid, hwfam, hwhead, hwrel, hwdel⟩ := hinv.headEx f hfmem
    by_cases h : f.fid = id
    · have hfdel : f.isDeleted = oldDel := htarget f hfmem h
      have hcond : (w.familyId == id && w.isDeleted == oldDel) = true := by
        simp [hwfam, h, hwdel, hfdel]
      refine ⟨belG w, ?_, ?_, ?_, ?_, ?_, ?_⟩
      · have h2 : belG w = (fun b : Believer =>
            if b.familyId == id && b.isDeleted == oldDel then belG b else b) w := by
          show belG w =
            if (w.familyId == id && w.isDeleted == oldDel) = true then belG w else w
          rw [hcond]
          exact (if_pos rfl).symm
        rw [h2]
        exact List.mem_map_of_mem _ hwmem
      · rw [if_pos (by simp [h]), (hfamG f).2.1, (hbelG w).1]
        exact hwhid
      · rw [if_pos (by simp [h]), (hfamG f).1, (hbelG w).2.1]
        exact hwfam
      · rw [(hbelG w).2.2.1]
        exact hwhead
      · rw [(hbelG w).2.2.2.1]
        exact hwrel
      · rw [if_pos (by simp [h]), (hfamG f).2.2, (hbelG w).2.2.2.2]
    · have hcond : (w.familyId == id && w.isDeleted == oldDel) = false := by
        simp [hwfam, h]
      refine ⟨w, ?_, ?_, ?_, hwhead, hwrel, ?_⟩
      · have h2 : w = (fun b : Believer =>
            if b.familyId == id && b.isDeleted == oldDel then belG b else b) w := by
          show w =
            if (w.familyId == id && w.isDeleted == oldDel) = true then belG w else w
          rw [hcond]
          exact (if_neg (by simp)).symm
        rw [h2]
        exact List.mem_map_of_mem _ hwmem
      · rw [if_neg (by simp [h])]
        exact hwhid
      · rw [if_neg (by simp [h])]
        exact hwfam
      · rw [if_neg (by simp [h])]
        exact hwdel
  · intro f2 hf2 b2 hb2 hbfam hbhead
    simp only [List.mem_map] at hf2 hb2
    obtain ⟨f, hfmem, rfl⟩ := hf2
    obtain ⟨b, hbmem, rfl⟩ := hb2
    rw [(hub b).1, (hufid f).2]
    exact hinv.headUniq f hfmem b hbmem
      (by rw [← (hub b).2.1, ← (hufid f).1]; exact hbfam)
      (by rw [← (hub b).2.2.1]; exact hbhead)

/-- Inserting a fresh family together with its fresh head believer (the
transactional family-creation write set) preserves the inductive invariant. -/
theorem inv_appendFamily (db : DB) (newFam : Family) (newHead : Believer)
    (hinv : Inv db)
    (hffid : newFam.fid = db.nextId) (hfhid : newFam.headId = some newHead.bid)
    (hfdel : newFam.isDeleted = false)
    (hbbid : newHead.bid = db.nextId + 1) (hbfam : newHead.familyId = db.nextId)
    (hbhead : newHead.isHead = true) (hbrel : newHead.relationshipToHead = "Self")
    (hbdel : newHead.isDeleted = false) :
    Inv { families := db.families ++ [newFam],
          believers := db.believers ++ [newHead], nextId := db.nextId + 2 } := by
  constructor
  · intro f hf
    show f.fid < db.nextId + 2
    rcases List.mem_append.mp hf with hf | hf
    · have := hinv.famLt f hf
      omega
    · rw [List.mem_singleton.mp hf, hffid]
      omega
  · intro b hb
    show b.bid < db.nextId + 2
    rcases List.mem_append.mp hb with hb | hb
    · have := hinv.belLt b hb
      omega
    · rw [List.mem_singleton.mp hb, hbbid]
      omega
  · show ((db.families ++ [newFam]).map Family.fid).Nodup
    rw [List.map_append]
    refine List.Nodup.append hinv.famNodup (by simp) ?_
    intro x hx hy
    simp only [List.map_cons, List.map_nil, List.mem_singleton] at hy
    simp only [List.mem_map] at hx
    obtain ⟨f, hf, rfl⟩ := hx
    have := hinv.famLt f hf
    omega
  · show ((db.believers ++ [newHead]).map Believer.bid).Nodup
    rw [List.map_append]
    refine List.Nodup.append hinv.belNodup (by simp) ?_
    intro x hx hy
    simp only [List.map_cons, List.map_nil, List.mem_singleton] at hy
    simp only [List.mem_map] at hx
    obtain ⟨b, hb, rfl⟩ := hx
    have := hinv.belLt b hb
    omega
  · intro b hb
    rcases List.mem_append.mp hb with hb | hb
    · obtain ⟨f, hf, hffid2⟩ := hinv.belFam b hb
      exact ⟨f, List.mem_append_left _ hf, hffid2⟩
    · rw [List.mem_singleton.mp hb]
      exact ⟨newFam, List.mem_append_right _ (List.mem_singleton_self _),
        by rw [hffid, hbfam]⟩
  · intro f hf
    rcases List.mem_append.mp hf with hf | hf
    · obtain ⟨w, hwmem, hwhid, hwfam, hwhead, hwrel, hwdel⟩ := hinv.headEx f hf
      exact ⟨w, List.mem_append_left _ hwmem, hwhid, hwfam, hwhead, hwrel, hwdel⟩
    · rw [List.mem_singleton.mp hf]
      exact ⟨newHead, List.mem_append_right _ (List.mem_singleton_self _),
        hfhid, by rw [hbfam, hffid], hbhead, hbrel, by rw [hbdel, hfdel]⟩
  · intro f hf b hb hbfam2 hbhead2
    rcases List.mem_append.mp hf with hf | hf <;>
      rcases List.mem_append.mp hb with hb | hb
    · exact hinv.headUniq f hf b hb hbfam2 hbhead2
    · exfalso
      rw [List.mem_singleton.mp hb, hbfam] at hbfam2
      have := hinv.famLt f hf
      omega
    · exfalso
      obtain ⟨g, hg, hgfid⟩ := hinv.belFam b hb
      rw [List.mem_singleton.mp hf, hffid] at hbfam2
      have := hinv.famLt g hg
      omega
    · rw [List.mem_singleton.mp hf, hfhid, List.mem_singleton.mp hb]

/-- Inserting a fresh non-head member of an existing family preserves the
inductive invariant. -/
theorem inv_appendMember (db : DB) (family : Family) (m : Believer)
    (hinv : Inv db) (hfam : family ∈ db.families)
    (hmbid : m.bid = db.nextId) (hmfam : m.familyId = family.fid)
    (hmhead : m.isHead = false) :
    Inv { db with believers := db.believers ++ [m], nextId := db.nextId + 1 } := by
  constructor
  · intro f hf
    show f.fid < db.nextId + 1
    have := hinv.famLt f hf
    omega
  · intro b hb
    show b.bid < db.nextId + 1
    rcases List.mem_append.mp hb with hb | hb
    · have := hinv.belLt b hb
      omega
    · rw [List.mem_singleton.mp hb, hmbid]
      omega
  · exact hinv.famNodup
  · show ((db.believers ++ [m]).map Believer.bid).Nodup
    rw [List.map_append]
    refine List.Nodup.append hinv.belNodup (by simp) ?_
    intro x hx hy
    simp only [List.map_cons, List.map_nil, List.mem_singleton] at hy
    simp only [List.mem_map] at hx
    obtain ⟨b, hb, rfl⟩ := hx
    have := hinv.belLt b hb
    omega
  · intro b hb
    rcases List.mem_append.mp hb with hb | hb
    · exact hinv.belFam b hb
    · rw [List.mem_singleton.mp hb]
      exact ⟨family, hfam, hmfam.symm⟩
  · intro f hf
    obtain ⟨w, hwmem, hwhid, hwfam, hwhead, hwrel, hwdel⟩ := hinv.headEx f hf
    exact ⟨w, List.mem_append_left _ hwmem, hwhid, hwfam, hwhead, hwrel, hwdel⟩
  · intro f hf b hb hbfam2 hbhead2
    rcases List.mem_append.mp hb with hb | hb
    · exact hinv.headUniq f hf b hb hbfam2 hbhead2
    · exfalso
      rw [List.mem_singleton.mp hb, hmhead] at hbhead2
      cases hbhead2

/-- Applying a sanitized believer update (plus spouse-reference sync)
preserves the inductive invariant: every write in this flow keeps the
identity and relationship core. -/
theorem inv_updateBelieverApply (db : DB) (id : Nat) (u : UpdateData)
    (hinv : Inv db) : Inv (updateBelieverApply db id u).1 := by
  have hcore : coreKeeps (applyUpdate (if u.baptized == some "No"
      then { u with baptizedDate := some none } else u)) :=
    fun b => ⟨rfl, rfl, rfl, rfl, rfl⟩
  have hspc : ∀ v : Option Nat, coreKeeps (fun b => { b with spouseId := v }) :=
    fun v b => ⟨rfl, rfl, rfl, rfl, rfl⟩
  simp only [updateBelieverApply]
  split
  · exact hinv
  · split
    · exact inv_updateCore _ _ _ (fun b => ⟨rfl, rfl, rfl, rfl, rfl⟩)
        (inv_updateCore _ _ _ hcore hinv)
    · split
      · split
        · exact inv_updateCore _ _ _ (fun b => ⟨rfl, rfl, rfl, rfl, rfl⟩)
            (inv_updateCore _ _ _ hcore hinv)
        · exact inv_updateCore _ _ _ hcore hinv
      · exact inv_updateCore _ _ _ hcore hinv
    · exact inv_updateCore _ _ _ hcore hinv

/-- The believer update controller preserves the inductive invariant. -/
theorem inv_updateBeliever (db : DB) (today : Int) (id : Nat) (raw : UpdateReq)
    (hinv : Inv db) : Inv (updateBeliever db today id raw).1 := by
  simp only [updateBeliever]
  split
  · exact hinv
  · split
    · exact hinv
    · split
      · exact inv_updateBelieverApply _ _ _ hinv
      · split
        · exact hinv
        · exact inv_updateBelieverApply _ _ _ hinv

/-- Soft-deleting a believer preserves the inductive invariant. -/
theorem inv_deleteBeliever (db : DB) (now : Int) (id : Nat) (hinv : Inv db) :
    Inv (deleteBeliever db now id).1 := by
  cases hfind : db.believers.find? (fun b => b.bid == id && b.isDeleted == false) with
  | none => simpa only [deleteBeliever, hfind] using hinv
  | some b =>
    have hmem := List.mem_of_find?_eq_some hfind
    have hpred := List.find?_some hfind
    simp only [Bool.and_eq_true, beq_iff_eq] at hpred
    by_cases hh : b.isHead = true
    · simp only [deleteBeliever, hfind]
      rw [if_pos hh]
      exact hinv
    · have hh2 : b.isHead = false := by
        cases hb : b.isHead
        · rfl
        · exact absurd hb hh
      have hnh : ∀ c ∈ db.believers, c.bid = id → c.isHead = false := by
        intro c hc hcbid
        have hcb : c = b := bid_inj hinv.belNodup hc hmem (by rw [hcbid, hpred.1])
        rw [hcb, hh2]
      simp only [deleteBeliever, hfind]
      rw [if_neg hh]
      cases hsp : b.spouseId with
      | none => exact inv_setDeleted db id true (some now) hinv hnh
      | some sid =>
        exact inv_updateCore _ _ _ (fun x => ⟨rfl, rfl, rfl, rfl, rfl⟩)
          (inv_setDeleted db id true (some now) hinv hnh)

/-- Restoring a believer preserves the inductive invariant (the target cannot
be a head: a head of a non-deleted family is never trashed). -/
theorem inv_restoreBeliever (db : DB) (id : Nat) (hinv : Inv db) :
    Inv (restoreBeliever db id).1 := by
  cases hfind : db.believers.find? (fun b => b.bid == id && b.isDeleted == true) with
  | none => simpa only [restoreBeliever, hfind] using hinv
  | some b =>
    cases hffind : db.families.find?
        (fun f => f.fid == b.familyId && f.isDeleted == false) with
    | none => simpa only [restoreBeliever, hfind, hffind] using hinv
    | some fam =>
      have hmem := List.mem_of_find?_eq_some hfind
      have hpred := List.find?_some hfind
      simp only [Bool.and_eq_true, beq_iff_eq] at hpred
      have hfmem := List.mem_of_find?_eq_some hffind
      have hfpred := List.find?_some hffind
      simp only [Bool.and_eq_true, beq_iff_eq] at hfpred
      have hh2 : b.isHead = false := by
        cases hb : b.isHead
        · rfl
        · exfalso
          have hhid : fam.headId = some b.bid :=
            hinv.headUniq fam hfmem b hmem hfpred.1.symm hb
          obtain ⟨w, hwmem, hwhid, hwfam, hwhead, hwrel, hwdel⟩ :=
            hinv.headEx fam hfmem
          have hwb : w = b := by
            apply bid_inj hinv.belNodup hwmem hmem
            rw [hwhid] at hhid
            injection hhid
          rw [hwb, hpred.2] at hwdel
          rw [hfpred.2] at hwdel
          cases hwdel
      have hnh : ∀ c ∈ db.believers, c.bid = id → c.isHead = false := by
        intro c hc hcbid
        have hcb : c = b := bid_inj hinv.belNodup hc hmem (by rw [hcbid, hpred.1])
        rw [hcb, hh2]
      simp only [restoreBeliever, hfind, hffind]
      exact inv_setDeleted db id false none hinv hnh

/-- Soft-deleting a family (with believer cascade) preserves the inductive
invariant. -/
theorem inv_deleteFamily (db : DB) (now : Int) (id : Nat) (hinv : Inv db) :
    Inv (deleteFamily db now id).1 := by
  cases hfind : db.families.find? (fun f => f.fid == id && f.isDeleted == false) with
  | none => simpa only [deleteFamily, hfind] using hinv
  | some fam =>
    have hfmem := List.mem_of_find?_eq_some hfind
    have hfpred := List.find?_some hfind
    simp only [Bool.and_eq_true, beq_iff_eq] at hfpred
    simp only [deleteFamily, hfind]
    exact inv_cascade db id false true _ _ hinv
      (fun f => ⟨rfl, rfl, rfl⟩) (fun b => ⟨rfl, rfl, rfl, rfl, rfl⟩)
      (fun f hf hfid => by
        have hffam : f = fam := fid_inj hinv.famNodup hf hfmem (by rw [hfid, hfpred.1])
        rw [hffam, hfpred.2])

/-- Restoring a family (with believer cascade) preserves the inductive
invariant. -/
theorem inv_restoreFamily (db : DB) (id : Nat) (hinv : Inv db) :
    Inv (restoreFamily db id).1 := by
  cases hfind : db.families.find? (fun f => f.fid == id && f.isDeleted == true) with
  | none => simpa only [restoreFamily, hfind] using hinv
  | some fam =>
    have hfmem := List.mem_of_find?_eq_some hfind
    have hfpred := List.find?_some hfind
    simp only [Bool.and_eq_true, beq_iff_eq] at hfpred
    simp only [restoreFamily, hfind]
    exact inv_cascade db id true false _ _ hinv
      (fun f => ⟨rfl, rfl, rfl⟩) (fun b => ⟨rfl, rfl, rfl, rfl, rfl⟩)
      (fun f hf hfid => by
        have hffam : f = fam := fid_inj hinv.famNodup hf hfmem (by rw [hfid, hfpred.1])
        rw [hffam, hfpred.2])

/-- Family creation with head preserves the inductive invariant. -/
theorem inv_createFamilyWithHead (db : DB) (today : Int) (req : CreateFamilyReq)
    (hinv : Inv db) : Inv (createFamilyWithHead db today req).1 := by
  unfold createFamilyWithHead
  by_cases h1 : isBlank req.address = true
  · rw [if_pos h1]; exact hinv
  rw [if_neg h1]
  by_cases h2 : isBlank req.village = true
  · rw [if_pos h2]; exact hinv
  rw [if_neg h2]
  by_cases h3 : isBlank req.district = true
  · rw [if_pos h3]; exact hinv
  rw [if_neg h3]
  by_cases h4 : (!(TN_DISTRICTS.contains (req.district.getD ""))) = true
  · rw [if_pos h4]; exact hinv
  rw [if_neg h4]
  by_cases h5 : isBlank (req.head.bind HeadReq.fullName) = true
  · rw [if_pos h5]; exact hinv
  rw [if_neg h5]
  by_cases h6 : (req.head.bind HeadReq.dob).isNone = true
  · rw [if_pos h6]; exact hinv
  rw [if_neg h6]
  by_cases h7 : isFalsy (req.head.bind HeadReq.gender) = true
  · rw [if_pos h7]; exact hinv
  rw [if_neg h7]
  by_cases h8 : isFalsy (req.head.bind HeadReq.maritalStatus) = true
  · rw [if_pos h8]; exact hinv
  rw [if_neg h8]
  by_cases h9 : isFalsy (req.head.bind HeadReq.baptized) = true
  · rw [if_pos h9]; exact hinv
  rw [if_neg h9]
  by_cases h10 : isFalsy (req.head.bind HeadReq.memberType) = true
  · rw [if_pos h10]; exact hinv
  rw [if_neg h10]
  by_cases h11 : isFalsy (req.head.bind HeadReq.occupationCategory) = true
  · rw [if_pos h11]; exact hinv
  rw [if_neg h11]
  by_cases h12 : (!(phoneValid (req.head.bind HeadReq.phone))) = true
  · rw [if_pos h12]; exact hinv
  rw [if_neg h12]
  exact inv_appendFamily db _ _ hinv rfl rfl rfl rfl rfl rfl rfl rfl

/-- Adding a member preserves the inductive invariant. -/
theorem inv_addMember (db : DB) (today : Int) (famId : Nat) (data : MemberReq)
    (hinv : Inv db) : Inv (addMember db today famId data).1 := by
  cases hfind : db.families.find? (fun f => f.fid == famId && f.isDeleted == false) with
  | none => simpa only [addMember, hfind] using hinv
  | some family =>
    have hfmem := List.mem_of_find?_eq_some hfind
    simp only [addMember, hfind]
    by_cases h1 : isBlank data.fullName = true
    · rw [if_pos h1]; exact hinv
    rw [if_neg h1]
    by_cases h2 : data.dob.isNone = true
    · rw [if_pos h2]; exact hinv
    rw [if_neg h2]
    by_cases h3 : isFalsy data.gender = true
    · rw [if_pos h3]; exact hinv
    rw [if_neg h3]
    by_cases h4 : (isFalsy data.relationshipToHead ||
        data.relationshipToHead == some "Self") = true
    · rw [if_pos h4]; exact hinv
    rw [if_neg h4]
    by_cases h5 : (data.relationshipToHead == some "Other" &&
        isBlank data.relationCustom) = true
    · rw [if_pos h5]; exact hinv
    rw [if_neg h5]
    by_cases h6 : isFalsy data.memberType = true
    · rw [if_pos h6]; exact hinv
    rw [if_neg h6]
    by_cases h7 : isFalsy data.occupationCategory = true
    · rw [if_pos h7]; exact hinv
    rw [if_neg h7]
    by_cases h8 : (!(phoneValid data.phone)) = true
    · rw [if_pos h8]; exact hinv
    rw [if_neg h8]
    by_cases h9 : (decide (calcAgeIST today (data.dob.getD 0) < 18) &&
        (data.relationshipToHead == some "Wife" ||
          data.relationshipToHead == some "Husband")) = true
    · rw [if_pos h9]; exact hinv
    rw [if_neg h9]
    by_cases h10 : ((data.relationshipToHead == some "Wife" ||
        data.relationshipToHead == some "Husband") &&
        decide (calcAgeIST today (data.dob.getD 0) ≥ 18)) = true
    · rw [if_pos h10]
      by_cases h11 : (db.believers.find?
          (fun b => family.headId == some b.bid)).isNone = true
      · rw [if_pos h11]; exact hinv
      rw [if_neg h11]
      by_cases h12 : ((db.believers.find?
          (fun b => family.headId == some b.bid)).getD
            dummyBeliever).spouseId.isSome = true
      · rw [if_pos h12]; exact hinv
      rw [if_neg h12]
      exact inv_updateCore _ _ _ (fun x => ⟨rfl, rfl, rfl, rfl, rfl⟩)
        (inv_updateCore _ _ _ (fun x => ⟨rfl, rfl, rfl, rfl, rfl⟩)
          (inv_appendMember db family _ hinv hfmem rfl rfl rfl))
    · rw [if_neg h10]
      by_cases hAge : calcAgeIST today (data.dob.getD 0) < 18
      · rw [if_pos hAge, if_pos hAge, if_pos hAge, if_pos hAge]
        split
        · exact hinv
        split
        · exact hinv
        exact inv_appendMember db family _ hinv hfmem rfl rfl rfl
      · rw [if_neg hAge, if_neg hAge, if_neg hAge, if_neg hAge]
        split
        · exact hinv
        split
        · exact hinv
        split
        · exact inv_updateCore _ _ _ (fun x => ⟨rfl, rfl, rfl, rfl, rfl⟩)
            (inv_appendMember db family _ hinv hfmem rfl rfl rfl)
        · exact inv_appendMember db family _ hinv hfmem rfl rfl rfl

/-- Reassigning the family head preserves the inductive invariant: the demoted
believer loses only `isHead`, the promoted one becomes the unique head, and
`headId` is repointed. -/
theorem inv_assignNewHead (db : DB) (famId : Nat) (newHeadId : Option Nat)
    (hinv : Inv db) : Inv (assignNewHead db famId newHeadId).1 := by
  cases newHeadId with
  | none => exact hinv
  | some nh =>
    cases hffind : db.families.find?
        (fun f => f.fid == famId && f.isDeleted == false) with
    | none => simpa only [assignNewHead, hffind] using hinv
    | some fam =>
      cases htfind : db.believers.find?
          (fun b => b.bid == nh && b.familyId == fam.fid && b.isDeleted == false) with
      | none => simpa only [assignNewHead, hffind, htfind] using hinv
      | some t =>
        have hfmem := List.mem_of_find?_eq_some hffind
        have hfpred := List.find?_some hffind
        simp only [Bool.and_eq_true, beq_iff_eq] at hfpred
        have htmem := List.mem_of_find?_eq_some htfind
        have htpred := List.find?_some htfind
        simp only [Bool.and_eq_true, beq_iff_eq] at htpred
        obtain ⟨⟨htbid, htfam⟩, htdel⟩ := htpred
        obtain ⟨w, hwmem, hwhid, hwfam, hwhead, hwrel, hwdel⟩ := hinv.headEx fam hfmem
        have hwdelf : w.isDeleted = false := by rw [hwdel, hfpred.2]
        simp only [assignNewHead, hffind, htfind, hwhid]
        show Inv
          { families := db.families.map (fun f =>
              if f.fid == famId then { f with headId := some nh } else f),
            believers := (db.believers.map (fun b =>
              if b.bid == w.bid then { b with isHead := false } else b)).map
              (fun b => if b.bid == nh then
                { b with isHead := true, relationshipToHead := "Self" } else b),
            nextId := db.nextId }
        have hcomp : ∀ x : Believer,
            ((fun b : Believer => if b.bid == nh then
                { b with isHead := true, relationshipToHead := "Self" } else b)
              ((fun b : Believer => if b.bid == w.bid then
                { b with isHead := false } else b) x)).bid = x.bid ∧
            ((fun b : Believer => if b.bid == nh then
                { b with isHead := true, relationshipToHead := "Self" } else b)
              ((fun b : Believer => if b.bid == w.bid then
                { b with isHead := false } else b) x)).familyId = x.familyId ∧
            ((fun b : Believer => if b.bid == nh then
                { b with isHead := true, relationshipToHead := "Self" } else b)
              ((fun b : Believer => if b.bid == w.bid then
                { b with isHead := false } else b) x)).isDeleted = x.isDeleted := by
          intro x
          by_cases h1 : (x.bid == w.bid) = true <;>
            by_cases h2 : (x.bid == nh) = true <;> simp [h1, h2]
        have hmiss : ∀ x : Believer, x.bid ≠ w.bid → x.bid ≠ nh →
            ((fun b : Believer => if b.bid == nh then
                { b with isHead := true, relationshipToHead := "Self" } else b)
              ((fun b : Believer => if b.bid == w.bid then
                { b with isHead := false } else b) x)) = x := by
          intro x h1 h2
          simp [h1, h2]
        have hhits : ∀ x : Believer, x.bid = nh →
            ((fun b : Believer => if b.bid == nh then
                { b with isHead := true, relationshipToHead := "Self" } else b)
              ((fun b : Believer => if b.bid == w.bid then
                { b with isHead := false } else b) x)).isHead = true ∧
            ((fun b : Believer => if b.bid == nh then
                { b with isHead := true, relationshipToHead := "Self" } else b)
              ((fun b : Believer => if b.bid == w.bid then
                { b with isHead := false } else b) x)).relationshipToHead = "Self" := by
          intro x hx
          by_cases h1 : nh = w.bid <;> simp [hx, h1]
        have hheadcase : ∀ x : Believer,
            ((fun b : Believer => if b.bid == nh then
                { b with isHead := true, relationshipToHead := "Self" } else b)
              ((fun b : Believer => if b.bid == w.bid then
                { b with isHead := false } else b) x)).isHead = true →
            x.bid = nh ∨ (x.bid ≠ w.bid ∧ x.isHead = true) := by
          intro x hx
          by_cases h2 : (x.bid == nh) = true
          · exact Or.inl (by simpa using h2)
          · by_cases h1 : (x.bid == w.bid) = true
            · exfalso
              rw [show ((fun b : Believer => if b.bid == nh then
                  { b with isHead := true, relationshipToHead := "Self" } else b)
                  ((fun b : Believer => if b.bid == w.bid then
                    { b with isHead := false } else b) x)).isHead = false by
                simp [h1, h2]] at hx
              cases hx
            · refine Or.inr ⟨by simpa using h1, ?_⟩
              rw [hmiss x (by simpa using h1) (by simpa using h2)] at hx
              exact hx
        have hufid : ∀ f : Family,
            ((if f.fid == famId then ({ f with headId := some nh } : Family)
              else f).fid = f.fid) ∧
            ((if f.fid == famId then ({ f with headId := some nh } : Family)
              else f).isDeleted = f.isDeleted) := by
          intro f
          by_cases h : (f.fid == famId) = true
          · rw [if_pos h]
            exact ⟨rfl, rfl⟩
          · rw [if_neg h]
            exact ⟨rfl, rfl⟩
        constructor
        · intro f hf
          simp only [List.mem_map] at hf
          obtain ⟨a, ha, rfl⟩ := hf
          show (if a.fid == famId then ({ a with headId := some nh } : Family)
            else a).fid < db.nextId
          rw [(hufid a).1]
          exact hinv.famLt a ha
        · intro b hb
          simp only [List.mem_map] at hb
          obtain ⟨a2, ha2, rfl⟩ := hb
          obtain ⟨a, ha, rfl⟩ := ha2
          rw [(hcomp a).1]
          exact hinv.belLt a ha
        · have hfid_map2 : (db.families.map (fun f =>
              if f.fid == famId then { f with headId := some nh } else f)).map
              Family.fid = db.families.map Family.fid := by
            rw [List.map_map]
            exact List.map_congr_left (fun a _ => (hufid a).1)
          show ((db.families.map (fun f =>
            if f.fid == famId then { f with headId := some nh } else f)).map
              Family.fid).Nodup
          rw [hfid_map2]
          exact hinv.famNodup
        · have hbid_map2 : ((db.believers.map (fun b =>
              if b.bid == w.bid then { b with isHead := false } else b)).map
              (fun b => if b.bid == nh then
                { b with isHead := true, relationshipToHead := "Self" } else b)).map
              Believer.bid = db.believers.map Believer.bid := by
            rw [List.map_map, List.map_map]
            exact List.map_congr_left (fun a _ => (hcomp a).1)
          show (((db.believers.map (fun b =>
            if b.bid == w.bid then { b with isHead := false } else b)).map
              (fun b => if b.bid == nh then
                { b with isHead := true, relationshipToHead := "Self" } else b)).map
              Believer.bid).Nodup
          rw [hbid_map2]
          exact hinv.belNodup
        · intro b hb
          simp only [List.mem_map] at hb
          obtain ⟨a2, ha2, rfl⟩ := hb
          obtain ⟨a, ha, rfl⟩ := ha2
          obtain ⟨f, hfm, hffid2⟩ := hinv.belFam a ha
          refine ⟨(if f.fid == famId then ({ f with headId := some nh } : Family)
            else f), List.mem_map_of_mem _ hfm, ?_⟩
          rw [(hufid f).1, (hcomp a).2.1]
          exact hffid2
        · intro f2 hf2
          simp only [List.mem_map] at hf2
          obtain ⟨f, hfm, rfl⟩ := hf2
          by_cases hffam : f.fid = famId
          · have hffameq : f = fam :=
              fid_inj hinv.famNodup hfm hfmem (by rw [hffam, hfpred.1])
            refine ⟨(fun b : Believer => if b.bid == nh then
                { b with isHead := true, relationshipToHead := "Self" } else b)
              ((fun b : Believer => if b.bid == w.bid then
                { b with isHead := false } else b) t), ?_, ?_, ?_, ?_, ?_, ?_⟩
            · exact List.mem_map_of_mem _ (List.mem_map_of_mem _ htmem)
            · rw [if_pos (by simp [hffam]), (hcomp t).1, htbid]
            · rw [if_pos (by simp [hffam]), (hcomp t).2.1, htfam, hffameq]
            · exact (hhits t htbid).1
            · exact (hhits t htbid).2
            · rw [if_pos (by simp [hffam]), (hcomp t).2.2, htdel, hffameq, hfpred.2]
          · obtain ⟨wf, hwfmem, hwfhid, hwffam, hwfhead, hwfrel, hwfdel⟩ :=
              hinv.headEx f hfm
            have hwfne1 : wf.bid ≠ w.bid := by
              intro h
              have : wf = w := bid_inj hinv.belNodup hwfmem hwmem h
              rw [this] at hwffam
              rw [hwfam, hfpred.1] at hwffam
              exact hffam hwffam.symm
            have hwfne2 : wf.bid ≠ nh := by
              intro h
              have : wf = t := bid_inj hinv.belNodup hwfmem htmem (by rw [h, htbid])
              rw [this] at hwffam
              rw [htfam, hfpred.1] at hwffam
              exact hffam hwffam.symm
            refine ⟨wf, ?_, ?_, ?_, hwfhead, hwfrel, ?_⟩
            · rw [show wf = (fun b : Believer => if b.bid == nh then
                  { b with isHead := true, relationshipToHead := "Self" } else b)
                  ((fun b : Believer => if b.bid == w.bid then
                    { b with isHead := false } else b) wf) from (hmiss wf hwfne1 hwfne2).symm]
              exact List.mem_map_of_mem _ (List.mem_map_of_mem _ hwfmem)
            · rw [if_neg (by simp [hffam])]
              exact hwfhid
            · rw [if_neg (by simp [hffam])]
              exact hwffam
            · rw [if_neg (by simp [hffam])]
              exact hwfdel
        · intro f2 hf2 b2 hb2 hbfam2 hbhead2
          simp only [List.mem_map] at hf2 hb2
          obtain ⟨f, hfm, rfl⟩ := hf2
          obtain ⟨a2, ha2, rfl⟩ := hb2
          obtain ⟨a, ha, rfl⟩ := ha2
          rw [(hcomp a).2.1] at hbfam2
          by_cases hffam : f.fid = famId
          · have hffameq : f = fam :=
              fid_inj hinv.famNodup hfm hfmem (by rw [hffam, hfpred.1])
            rw [if_pos (by simp [hffam]), (hcomp a).1]
            rcases hheadcase a hbhead2 with habid | ⟨hane, hahead⟩
            · rw [habid]
            · exfalso
              have : f.headId = some a.bid :=
                hinv.headUniq f hfm a ha (by rw [(hufid f).1] at hbfam2; exact hbfam2) hahead
              rw [hffameq, hwhid] at this
              injection this with hh
              exact hane hh.symm
          · rw [if_neg (by simp [hffam]), (hcomp a).1]
            rcases hheadcase a hbhead2 with habid | ⟨hane, hahead⟩
            · exfalso
              have hat : a = t := bid_inj hinv.belNodup ha htmem (by rw [habid, htbid])
              rw [(hufid f).1] at hbfam2
              rw [hat, htfam, hfpred.1] at hbfam2
              exact hffam hbfam2.symm
            · exact hinv.headUniq f hfm a ha (by rw [(hufid f).1] at hbfam2; exact hbfam2)
                hahead

/-- Every reachable state satisfies the inductive invariant, by induction over
the lifecycle operations. -/
theorem inv_reachable (db : DB) (h : Reachable db) : Inv db := by
  induction h with
  | init => exact inv_empty
  | create db today req _ ih => exact inv_createFamilyWithHead db today req ih
  | add db today famId data _ ih => exact inv_addMember db today famId data ih
  | update db today id raw _ ih => exact inv_updateBeliever db today id raw ih
  | delBel db now id _ ih => exact inv_deleteBeliever db now id ih
  | resBel db id _ ih => exact inv_restoreBeliever db id ih
  | delFam db now id _ ih => exact inv_deleteFamily db now id ih
  | resFam db id _ ih => exact inv_restoreFamily db id ih
  | assign db famId nh _ ih => exact inv_assignNewHead db famId nh ih

/-- The inductive invariant implies the head-uniqueness property that the code
maintains. -/
theorem inv_headInvariant (db : DB) (hinv : Inv db) : headInvariant db := by
  intro f hf hdel
  obtain ⟨b, hbmem, hbhid, hbfam, hbhead, hbrel, hbdel⟩ := hinv.headEx f hf
  refine ⟨b, hbmem, hbhead, hbfam, by rw [hbdel, hdel], hbrel, ?_⟩
  intro c hc hchead hcfam hcdel
  have hcb := hinv.headUniq f hf c hc hcfam hchead
  rw [hbhid] at hcb
  injection hcb with h2
  exact bid_inj hinv.belNodup hc hbmem h2.symm

/-- C1 (amended): in every state reachable by the lifecycle operations
(createFamilyWithHead, addMember, updateBeliever, assignNewHead, soft delete
and restore of believers and families), every non-deleted family has exactly
one non-deleted believer with isHead = true whose familyId is the family id,
and that believer has relationshipToHead equal to Self. The original further
conjunct of the claim, that no believer with isHead = false has
relationshipToHead Self, is refuted by the counterexample below: assignNewHead
demotes the prior head without touching its relationshipToHead. -/
theorem reachable_head_unique (db : DB) (h : Reachable db) : headInvariant db :=
  inv_headInvariant db (inv_reachable db h)

/-- Witness for C1: the state after creating one family with a head is
reachable and satisfies the head-uniqueness property. -/
theorem reachable_head_unique_witness :
    Reachable exDB1 ∧ headInvariant exDB1 := by
  have hr : Reachable exDB1 :=
    Reachable.create DB.empty 2000 famReq1 Reachable.init
  exact ⟨hr, reachable_head_unique exDB1 hr⟩

/-- C1 counterexample: the state obtained by creating a family, adding a son
and reassigning headship to the son is reachable, yet it contains a
non-deleted believer with isHead = false whose relationshipToHead is still
Self — the demoted head. This refutes the claim conjunct that no believer with
isHead = false has relationshipToHead Self. -/
theorem assignNewHead_demoted_keeps_self :
    Reachable exDB3 ∧
    ∃ b ∈ exDB3.believers, b.isDeleted = false ∧ b.isHead = false ∧
      b.relationshipToHead = "Self" := by
  constructor
  · exact Reachable.assign exDB2 0 (some 2)
      (Reachable.add exDB1 2000 0 sonReq
        (Reachable.create DB.empty 2000 famReq1 Reachable.init))
  · decide

end CBMS
